import Mathlib

/-!
Verification of the dbdiff schema differ.

This file gives a shallow embedding, in Lean 4, of the pure core of the
dbdiff tool: the schema model types (tables, columns, indexes, triggers,
views, foreign keys, constraints) and the diff algorithms of the SQLite
and PostgreSQL drivers.  Introspection (catalog queries) performs I/O and
is outside the embedding; every function below is a translation of the
corresponding Go function applied to already-introspected models.

Conventions of the embedding:
* Go slices become `List`, Go strings become `String`, `sql.NullString`
  becomes the `NullString` structure below.
* A Go `map[string]string` is embedded as an association list
  (`List (String × String)`) whose *content* (key set and values) matches
  the Go map; assignment is `mapInsert`.  Where the Go code *iterates*
  such a map — an operation whose order the Go language deliberately
  leaves unspecified — the embedding takes the iteration order as an
  explicit parameter (see `SQLiteTable.DiffTableStmtsWith`).
* `fmt.Fprintf(&diff, "%s\n", stmt)` sequences are embedded as lists of
  statements joined by `joinStmts`, and `strings.TrimSpace` as
  `trimSpace` (ASCII whitespace).
* Functions returning `(string, error)` become `Except String String`.
-/

/-- Go `unicode.IsSpace` restricted to the ASCII whitespace characters,
as used by `strings.TrimSpace`. -/
def isSpaceGo (c : Char) : Bool :=
  c = ' ' || c = '\t' || c = '\n' || c = '\r' || c = '\x0b' || c = '\x0c'

/-- Embedding of Go `strings.TrimSpace` (ASCII whitespace). -/
def trimSpace (s : String) : String :=
  String.mk (((s.data.dropWhile isSpaceGo).reverse.dropWhile isSpaceGo).reverse)

/-- The emitted script: each statement is printed followed by a newline. -/
def joinStmts (stmts : List String) : String :=
  String.join (stmts.map (fun s => s ++ "\n"))

/-- Double quoting of identifiers, `fmt.Sprintf("\"%s\"", s)`. -/
def quoteIdent (s : String) : String :=
  "\"" ++ s ++ "\""

/-- Alias for the string type, usable inside namespaces where a rendering
method named `String` shadows the type name. -/
abbrev GoStr : Type := String

/-- Embedding of Go `database/sql.NullString`. -/
structure NullString where
  String : String
  Valid : Bool
deriving DecidableEq

/-- Association-list embedding of a Go `map[string]string`: lookup. -/
def mapLookup (m : List (String × String)) (k : String) : Option String :=
  (m.find? (fun p => p.1 == k)).map (fun p => p.2)

/-- Association-list embedding of a Go `map[string]string`: key test. -/
def mapContainsKey (m : List (String × String)) (k : String) : Bool :=
  m.any (fun p => p.1 == k)

/-- Association-list embedding of a Go map assignment `m[k] = v`:
overwrites the value at an existing key, otherwise appends the pair. -/
def mapInsert (m : List (String × String)) (k v : String) : List (String × String) :=
  if mapContainsKey m k then m.map (fun p => if p.1 == k then (k, v) else p)
  else m ++ [(k, v)]

/-- Embedding of `lo.Invert`: swaps keys and values. -/
def mapInvert (m : List (String × String)) : List (String × String) :=
  m.map (fun p => (p.2, p.1))

/-- Column of the SQLite schema model (`SQLiteColumn` in Go); `Type'`
stands for the Go field `Type`. -/
structure SQLiteColumn where
  Name : String
  Type' : String
  NotNull : Bool
  PrimaryKey : Bool
  Default : NullString
deriving DecidableEq

/-- Go `SQLiteColumn.HasEqualAttributes`: equality of every field except
the name (the receiver's copy gets the other column's name first). -/
def SQLiteColumn.HasEqualAttributes (c other : SQLiteColumn) : Bool :=
  decide ({ c with Name := other.Name } = other)

/-- Go `SQLiteColumn.String`: the rendered column clause. -/
def SQLiteColumn.String (c : SQLiteColumn) : String :=
  "\"" ++ c.Name ++ "\" " ++ c.Type'
    ++ (if c.NotNull then " NOT NULL" else "")
    ++ (if c.PrimaryKey then " PRIMARY KEY" else "")
    ++ (if c.Default.Valid then " DEFAULT " ++ c.Default.String else "")

/-- The compatibility allowlist of `SQLiteColumn.IsTypeChangeCompatible`
(the key set of the Go map literal `compatibleTypes`). -/
def compatibleTypes : List String :=
  ["TEXT", "INTEGER", "REAL", "BLOB"]

/-- Go `SQLiteColumn.IsTypeChangeCompatible`: both declared types lie in
the allowlist. -/
def SQLiteColumn.IsTypeChangeCompatible (c other : SQLiteColumn) : Bool :=
  compatibleTypes.contains c.Type' && compatibleTypes.contains other.Type'

/-- Index of the SQLite schema model. -/
structure SQLiteIndex where
  Table : String
  Name : String
  Columns : List String
  Unique : Bool
deriving DecidableEq

/-- Go `SQLiteIndex.Equal`. -/
def SQLiteIndex.Equal (i other : SQLiteIndex) : Bool :=
  if i.Name != other.Name || i.Table != other.Table || i.Unique != other.Unique then false
  else if i.Columns.length != other.Columns.length then false
  else i.Columns == other.Columns

/-- Go `SQLiteIndex.String`: the CREATE INDEX statement. -/
def SQLiteIndex.String (i : SQLiteIndex) : String :=
  "CREATE " ++ (if i.Unique then "UNIQUE " else "")
    ++ ("INDEX \"" ++ i.Name ++ "\" ON \"" ++ i.Table ++ "\" ("
        ++ String.intercalate ", " (i.Columns.map quoteIdent) ++ ");")

/-- Trigger of the SQLite schema model: name and stored CREATE text. -/
structure SQLiteTrigger where
  Name : String
  SQL : String
deriving DecidableEq

/-- View of the SQLite schema model: name and stored CREATE text. -/
structure SQLiteView where
  Name : String
  SQL : String
deriving DecidableEq

/-- Go `SQLiteView.Diff`: drop and recreate when the stored SQL differs. -/
def SQLiteView.Diff (v other : SQLiteView) : String :=
  trimSpace
    (if v.SQL != other.SQL then
      "DROP VIEW \"" ++ other.Name ++ "\";\n" ++ v.SQL ++ ";\n"
    else "")

/-- Foreign key of the SQLite schema model. -/
structure SQLiteForeignKey where
  Table : String
  From : List String
  To : List String
  OnUpdate : String
  OnDelete : String
deriving DecidableEq

/-- Go `SQLiteForeignKey.String`: rendered inline FOREIGN KEY clause. -/
def SQLiteForeignKey.String (fk : SQLiteForeignKey) : String :=
  "FOREIGN KEY (" ++ String.intercalate ", " (fk.From.map quoteIdent)
    ++ ") REFERENCES \"" ++ fk.Table ++ "\" ("
    ++ String.intercalate ", " (fk.To.map quoteIdent) ++ ")"
    ++ (if fk.OnUpdate != "NO ACTION" && fk.OnUpdate != "" then " ON UPDATE " ++ fk.OnUpdate else "")
    ++ (if fk.OnDelete != "NO ACTION" && fk.OnDelete != "" then " ON DELETE " ++ fk.OnDelete else "")

/-- Go `SQLiteForeignKey.Equal`: field-by-field structural equality,
with explicit length checks before the element-wise loops. -/
def SQLiteForeignKey.Equal (fk other : SQLiteForeignKey) : Bool :=
  if fk.Table != other.Table || fk.OnUpdate != other.OnUpdate || fk.OnDelete != other.OnDelete then
    false
  else if fk.From.length != other.From.length || fk.To.length != other.To.length then
    false
  else
    fk.From == other.From && fk.To == other.To

/-- Table of the SQLite schema model. -/
structure SQLiteTable where
  Name : String
  Columns : List SQLiteColumn
  Indexes : List SQLiteIndex
  Triggers : List SQLiteTrigger
  ForeignKeys : List SQLiteForeignKey
deriving DecidableEq

/-- Go `SQLiteTable.ColumnByName`: first column with the given name. -/
def SQLiteTable.ColumnByName (t : SQLiteTable) (name : String) : Option SQLiteColumn :=
  t.Columns.find? (fun c => c.Name == name)

/-- Go `SQLiteTable.IndexByName`. -/
def SQLiteTable.IndexByName (t : SQLiteTable) (name : String) : Option SQLiteIndex :=
  t.Indexes.find? (fun i => i.Name == name)

/-- Go `SQLiteTable.TriggerByName`. -/
def SQLiteTable.TriggerByName (t : SQLiteTable) (name : String) : Option SQLiteTrigger :=
  t.Triggers.find? (fun g => g.Name == name)

/-- Go `SQLiteTable.StringCreateTable`: column clauses then foreign-key
clauses, each tab-indented, joined by ",\n". -/
def SQLiteTable.StringCreateTable (t : SQLiteTable) : String :=
  "CREATE TABLE \"" ++ t.Name ++ "\" (\n"
    ++ String.intercalate ",\n"
        (t.Columns.map (fun c => "\t" ++ c.String) ++ t.ForeignKeys.map (fun fk => "\t" ++ fk.String))
    ++ "\n);"

/-- Go `SQLiteTable.StringCreateIndexes`. -/
def SQLiteTable.StringCreateIndexes (t : SQLiteTable) : String :=
  String.intercalate "\n" (t.Indexes.map SQLiteIndex.String)

/-- Go `SQLiteTable.StringCreateTriggers`. -/
def SQLiteTable.StringCreateTriggers (t : SQLiteTable) : String :=
  String.intercalate "\n" (t.Triggers.map (fun g => g.SQL ++ ";"))

/-- Go `SQLiteTable.String`: full creation DDL of the table. -/
def SQLiteTable.String (t : SQLiteTable) : String :=
  t.StringCreateTable
    ++ (if t.StringCreateIndexes != "" then "\n" ++ t.StringCreateIndexes else "")
    ++ (if t.StringCreateTriggers != "" then "\n" ++ t.StringCreateTriggers else "")

/-- Result record of `SQLiteTable.DiffColumns` (`SQLiteTableColumnsDiff`
in Go).  `Renamed` embeds the Go map `oldName -> newName` as an
association list in insertion order. -/
structure SQLiteTableColumnsDiff where
  Added : List String
  Modified : List String
  Removed : List String
  Renamed : List (String × String)
  ForeignKeysChanged : Bool
deriving DecidableEq

/-- The `lo.Find` call inside the first loop of `DiffColumns`: the first
target column whose name is absent from the source table and whose
non-name attributes equal those of the source column `c`. -/
def SQLiteTable.renameTargetFor (t other : SQLiteTable) (c : SQLiteColumn) : Option SQLiteColumn :=
  other.Columns.find? (fun tc => (t.ColumnByName tc.Name).isNone && tc.HasEqualAttributes c)

/-- Body of the first loop of `DiffColumns` for one source column. -/
def SQLiteTable.diffColumnsStep (t other : SQLiteTable) (acc : SQLiteTableColumnsDiff)
    (c : SQLiteColumn) : SQLiteTableColumnsDiff :=
  match other.ColumnByName c.Name with
  | none =>
    match t.renameTargetFor other c with
    | some tc => { acc with Renamed := mapInsert acc.Renamed tc.Name c.Name }
    | none => { acc with Added := acc.Added ++ [c.Name] }
  | some tc =>
    if c = tc then acc
    else if c.Type' ≠ tc.Type' then
      if c.IsTypeChangeCompatible tc then { acc with Modified := acc.Modified ++ [c.Name] }
      else { acc with Removed := acc.Removed ++ [tc.Name], Added := acc.Added ++ [c.Name] }
    else { acc with Modified := acc.Modified ++ [c.Name] }

/-- First loop of `DiffColumns`, over the source columns. -/
def SQLiteTable.diffColumnsLoop1 (t other : SQLiteTable) :
    List SQLiteColumn → SQLiteTableColumnsDiff → SQLiteTableColumnsDiff
  | [], acc => acc
  | c :: rest, acc => diffColumnsLoop1 t other rest (t.diffColumnsStep other acc c)

/-- Second loop of `DiffColumns`, over the target columns: a target
column absent from the source and not a key of the rename map is
appended to the removed list. -/
def SQLiteTable.diffColumnsLoop2 (t : SQLiteTable) (ren : List (GoStr × GoStr)) :
    List SQLiteColumn → List GoStr → List GoStr
  | [], acc => acc
  | tc :: rest, acc =>
    diffColumnsLoop2 t ren rest
      (if (t.ColumnByName tc.Name).isNone && !((ren.map Prod.fst).contains tc.Name) then
        acc ++ [tc.Name]
      else acc)

/-- The foreign-key comparison at the end of `DiffColumns`: changed when
the lengths differ or some source foreign key has no structurally equal
target foreign key. -/
def SQLiteTable.foreignKeysChangedCheck (t other : SQLiteTable) : Bool :=
  if t.ForeignKeys.length != other.ForeignKeys.length then true
  else t.ForeignKeys.any (fun sfk => !(other.ForeignKeys.any (fun tfk => tfk.Equal sfk)))

/-- Go `SQLiteTable.DiffColumns`. -/
def SQLiteTable.DiffColumns (t other : SQLiteTable) : SQLiteTableColumnsDiff :=
  let d1 := t.diffColumnsLoop1 other t.Columns ⟨[], [], [], [], false⟩
  let d2 := { d1 with Removed := t.diffColumnsLoop2 d1.Renamed other.Columns d1.Removed }
  { d2 with ForeignKeysChanged := t.foreignKeysChangedCheck other }

/-- The shadow table of the rebuild protocol: a copy of the source table
with only the name changed. -/
def SQLiteTable.tempTable (t : SQLiteTable) : SQLiteTable :=
  { t with Name := "_" ++ t.Name ++ "_temp" }

/-- Select expression of the rebuild protocol's INSERT-SELECT for one
source column, as computed by `DiffTable` (`newToOld` is the inverted
rename map). -/
def SQLiteTable.selectExprFor (other : SQLiteTable) (newToOld : List (GoStr × GoStr))
    (c : SQLiteColumn) : GoStr :=
  if (other.ColumnByName c.Name).isSome then quoteIdent c.Name
  else
    match mapLookup newToOld c.Name with
    | some oldName => quoteIdent oldName
    | none => if c.Default.Valid then c.Default.String else "NULL"

/-- The statements of the rebuild branch of `SQLiteTable.DiffTable`:
create the shadow table, copy the data with the explicit column
mapping, drop the old table, rename the shadow, recreate the source
indexes. -/
def SQLiteTable.rebuildStmts (t other : SQLiteTable) : List GoStr :=
  let cd := t.DiffColumns other
  let tmp := t.tempTable
  let newToOld := mapInvert cd.Renamed
  let insertColumns := t.Columns.map (fun c => quoteIdent c.Name)
  let selectColumns := t.Columns.map (SQLiteTable.selectExprFor other newToOld)
  [tmp.StringCreateTable,
   "INSERT INTO \"" ++ tmp.Name ++ "\" (" ++ String.intercalate ", " insertColumns
     ++ ") SELECT " ++ String.intercalate ", " selectColumns
     ++ " FROM \"" ++ t.Name ++ "\";",
   "DROP TABLE \"" ++ t.Name ++ "\";",
   "ALTER TABLE \"" ++ tmp.Name ++ "\" RENAME TO \"" ++ t.Name ++ "\";"]
  ++ t.Indexes.map SQLiteIndex.String

/-- The added-columns loop of the in-place branch of `DiffTable`; a name
not found in the source table aborts with the internal error of the Go
code. -/
def SQLiteTable.addColumnsLoop (t : SQLiteTable) :
    List GoStr → List GoStr → Except GoStr (List GoStr)
  | [], acc => .ok acc
  | n :: rest, acc =>
    match t.ColumnByName n with
    | none => .error ("internal error: added column " ++ n ++ " not found in table " ++ t.Name)
    | some column =>
      t.addColumnsLoop rest
        (acc ++ ["ALTER TABLE \"" ++ t.Name ++ "\" ADD COLUMN " ++ column.String ++ ";"])

/-- The statements of the in-place branch of `DiffTable`: the renames of
the Go map iteration (order given by `ord`), then the dropped columns,
then the added columns. -/
def SQLiteTable.inPlaceStmts (ord : List (GoStr × GoStr)) (t : SQLiteTable)
    (cd : SQLiteTableColumnsDiff) : Except GoStr (List GoStr) :=
  let renames := ord.map (fun p =>
    "ALTER TABLE \"" ++ t.Name ++ "\" RENAME COLUMN \"" ++ p.1 ++ "\" TO \"" ++ p.2 ++ "\";")
  let removes := cd.Removed.map (fun n =>
    "ALTER TABLE \"" ++ t.Name ++ "\" DROP COLUMN \"" ++ n ++ "\";")
  match t.addColumnsLoop cd.Added [] with
  | .error e => .error e
  | .ok adds => .ok (renames ++ removes ++ adds)

/-- Statement list of Go `SQLiteTable.DiffTable`.  The parameter `ord`
is the iteration order of the `renamedColumns` map in the emission loop
of the in-place branch; the Go language leaves this order unspecified,
so the embedding takes it as an argument (any permutation of
`(t.DiffColumns other).Renamed` is a possible execution). -/
def SQLiteTable.DiffTableStmtsWith (ord : List (GoStr × GoStr)) (t other : SQLiteTable) :
    Except GoStr (List GoStr) :=
  let cd := t.DiffColumns other
  if cd.Modified.length > 0 || cd.ForeignKeysChanged then .ok (t.rebuildStmts other)
  else t.inPlaceStmts ord cd

/-- Go `SQLiteTable.DiffTable` with an explicit map-iteration order:
the printed statements, trimmed. -/
def SQLiteTable.DiffTableWith (ord : List (GoStr × GoStr)) (t other : SQLiteTable) :
    Except GoStr GoStr :=
  match t.DiffTableStmtsWith ord other with
  | .error e => .error e
  | .ok stmts => .ok (trimSpace (joinStmts stmts))

/-- Go `SQLiteTable.DiffTable` with the insertion order of the rename
map as iteration order (one of its possible executions). -/
def SQLiteTable.DiffTable (t other : SQLiteTable) : Except GoStr GoStr :=
  t.DiffTableWith (t.DiffColumns other).Renamed other

/-- Statement list of Go `SQLiteTable.DiffIndexes`. -/
def SQLiteTable.diffIndexesStmts (t other : SQLiteTable) : List GoStr :=
  (t.Indexes.flatMap (fun si =>
    match other.IndexByName si.Name with
    | none => [si.String]
    | some ti =>
      if !(si.Equal ti) then ["DROP INDEX \"" ++ ti.Name ++ "\";", si.String] else []))
  ++ other.Indexes.flatMap (fun ti =>
    if (t.IndexByName ti.Name).isNone then ["DROP INDEX \"" ++ ti.Name ++ "\";"] else [])

/-- Go `SQLiteTable.DiffIndexes` (the Go function returns the builder's
content without trimming and a nil error). -/
def SQLiteTable.DiffIndexes (t other : SQLiteTable) : GoStr :=
  joinStmts (t.diffIndexesStmts other)

/-- Statement list of Go `SQLiteTable.DiffTriggers`. -/
def SQLiteTable.diffTriggersStmts (t other : SQLiteTable) : List GoStr :=
  (t.Triggers.flatMap (fun sg =>
    match other.TriggerByName sg.Name with
    | none => [sg.SQL ++ ";"]
    | some tg =>
      if sg.SQL ≠ tg.SQL then ["DROP TRIGGER \"" ++ tg.Name ++ "\";", sg.SQL ++ ";"] else []))
  ++ other.Triggers.flatMap (fun tg =>
    if (t.TriggerByName tg.Name).isNone then ["DROP TRIGGER \"" ++ tg.Name ++ "\";"] else [])

/-- Go `SQLiteTable.DiffTriggers` (untrimmed, nil error). -/
def SQLiteTable.DiffTriggers (t other : SQLiteTable) : GoStr :=
  joinStmts (t.diffTriggersStmts other)

/-- Per-table body of the loop over source tables in Go
`SQLiteDriver.DiffTables`: a source table absent from the target is
created whole; otherwise the table, index and trigger diffs are printed
(each via `Fprintln`, hence with a trailing newline). -/
def SQLiteDriver.diffTablesLoop (ords : SQLiteTable → SQLiteTable → List (String × String))
    (targetTables : List SQLiteTable) :
    List SQLiteTable → String → Except String String
  | [], acc => .ok acc
  | st :: rest, acc =>
    match targetTables.find? (fun t => t.Name == st.Name) with
    | none => diffTablesLoop ords targetTables rest (acc ++ st.String ++ "\n")
    | some tt =>
      match st.DiffTableWith (ords st tt) tt with
      | .error e => .error e
      | .ok d1 =>
        diffTablesLoop ords targetTables rest
          (acc ++ d1 ++ "\n" ++ st.DiffIndexes tt ++ "\n" ++ st.DiffTriggers tt ++ "\n")

/-- The removed-tables loop of Go `SQLiteDriver.DiffTables`. -/
def SQLiteDriver.dropTablesLoop (sourceTables : List SQLiteTable) :
    List SQLiteTable → String → String
  | [], acc => acc
  | tt :: rest, acc =>
    dropTablesLoop sourceTables rest
      (if (sourceTables.find? (fun t => t.Name == tt.Name)).isSome then acc
       else acc ++ "DROP TABLE \"" ++ tt.Name ++ "\";\n")

/-- Go `SQLiteDriver.DiffTables`, as a function of the two introspected
table lists.  `ords` supplies, for each diffed table pair, the iteration
order of the rename map (see `SQLiteTable.DiffTableStmtsWith`). -/
def SQLiteDriver.DiffTablesWith (ords : SQLiteTable → SQLiteTable → List (String × String))
    (sourceTables targetTables : List SQLiteTable) : Except String String :=
  match diffTablesLoop ords targetTables sourceTables "" with
  | .error e => .error e
  | .ok acc => .ok (trimSpace (dropTablesLoop sourceTables targetTables acc))

/-- The added-or-modified-views loop of Go `SQLiteDriver.DiffViews`. -/
def SQLiteDriver.diffViewsLoop (targetViews : List SQLiteView) :
    List SQLiteView → String → String
  | [], acc => acc
  | sv :: rest, acc =>
    diffViewsLoop targetViews rest
      (match targetViews.find? (fun v => v.Name == sv.Name) with
       | none => acc ++ sv.SQL ++ ";\n"
       | some tv => acc ++ sv.Diff tv ++ "\n")

/-- The removed-views loop of Go `SQLiteDriver.DiffViews`. -/
def SQLiteDriver.dropViewsLoop (sourceViews : List SQLiteView) :
    List SQLiteView → String → String
  | [], acc => acc
  | tv :: rest, acc =>
    dropViewsLoop sourceViews rest
      (if (sourceViews.find? (fun v => v.Name == tv.Name)).isSome then acc
       else acc ++ "DROP VIEW \"" ++ tv.Name ++ "\";\n")

/-- Go `SQLiteDriver.DiffViews`, as a function of the two introspected
view lists. -/
def SQLiteDriver.DiffViews (sourceViews targetViews : List SQLiteView) : String :=
  trimSpace (dropViewsLoop sourceViews targetViews (diffViewsLoop targetViews sourceViews ""))

/-- Go `SQLiteDriver.Diff`, as a function of the two introspected models
(tables and views of the source and of the target), with explicit rename
map iteration orders. -/
def SQLiteDriver.DiffWith (ords : SQLiteTable → SQLiteTable → List (String × String))
    (sourceTables targetTables : List SQLiteTable)
    (sourceViews targetViews : List SQLiteView) : Except String String :=
  match SQLiteDriver.DiffTablesWith ords sourceTables targetTables with
  | .error e => .error e
  | .ok t =>
    .ok (trimSpace (t ++ "\n" ++ SQLiteDriver.DiffViews sourceViews targetViews ++ "\n"))

/-- Go `SQLiteDriver.Diff` with insertion-order iteration of the rename
maps (one of its possible executions). -/
def SQLiteDriver.Diff (sourceTables targetTables : List SQLiteTable)
    (sourceViews targetViews : List SQLiteView) : Except String String :=
  SQLiteDriver.DiffWith (fun a b => (a.DiffColumns b).Renamed)
    sourceTables targetTables sourceViews targetViews

/-- Column of the PostgreSQL schema model; `Type'` stands for the Go
field `Type`. -/
structure PostgresColumn where
  Name : String
  Type' : String
  NotNull : Bool
  Default : NullString
deriving DecidableEq

/-- Go `PostgresColumn.HasEqualAttributes`. -/
def PostgresColumn.HasEqualAttributes (c other : PostgresColumn) : Bool :=
  decide ({ c with Name := other.Name } = other)

/-- Go `PostgresColumn.String`. -/
def PostgresColumn.String (c : PostgresColumn) : String :=
  "\"" ++ c.Name ++ "\" " ++ c.Type'
    ++ (if c.NotNull then " NOT NULL" else "")
    ++ (if c.Default.Valid then " DEFAULT " ++ c.Default.String else "")

/-- Constraint of the PostgreSQL schema model; `Type'` stands for the Go
field `Type` (the `pg_constraint.contype` code). -/
structure PostgresConstraint where
  Name : String
  Type' : String
  Def : String
deriving DecidableEq

/-- Go `PostgresConstraint.String`. -/
def PostgresConstraint.String (c : PostgresConstraint) : String :=
  "CONSTRAINT \"" ++ c.Name ++ "\" " ++ c.Def

/-- Index of the PostgreSQL schema model: name and the full definition
string from `pg_indexes.indexdef` (fields as read by the introspector
and compared by `PostgresTable.DiffTable`). -/
structure PostgresIndex where
  Name : String
  Def : String
deriving DecidableEq

/-- Modelled from the spec: the rendering method `PostgresIndex.String`
is not among the provided sources; per the specification the renderer
replays the catalog-provided CREATE INDEX definition as a statement,
terminated with a semicolon. -/
def PostgresIndex.String (i : PostgresIndex) : String :=
  i.Def ++ ";"

/-- Trigger of the PostgreSQL schema model: name and the
`pg_get_triggerdef` definition string. -/
structure PostgresTrigger where
  Name : String
  Def : String
deriving DecidableEq

/-- Modelled from the spec: the rendering method
`PostgresTrigger.String` is not among the provided sources; per the
specification the renderer replays the catalog-provided CREATE TRIGGER
definition as a statement, terminated with a semicolon. -/
def PostgresTrigger.String (g : PostgresTrigger) : String :=
  g.Def ++ ";"

/-- View of the PostgreSQL schema model. -/
structure PostgresView where
  Name : String
  Def : String
deriving DecidableEq

/-- Go `PostgresView.String`. -/
def PostgresView.String (v : PostgresView) : String :=
  "CREATE VIEW \"" ++ v.Name ++ "\" AS " ++ v.Def

/-- Table of the PostgreSQL schema model. -/
structure PostgresTable where
  Name : String
  Columns : List PostgresColumn
  Indexes : List PostgresIndex
  Constraints : List PostgresConstraint
  Triggers : List PostgresTrigger
deriving DecidableEq

/-- Go `PostgresTable.ColumnByName`. -/
def PostgresTable.ColumnByName (t : PostgresTable) (name : String) : Option PostgresColumn :=
  t.Columns.find? (fun c => c.Name == name)

/-- Go `PostgresTable.ConstraintByName`. -/
def PostgresTable.ConstraintByName (t : PostgresTable) (name : String) : Option PostgresConstraint :=
  t.Constraints.find? (fun c => c.Name == name)

/-- Go `PostgresTable.IndexByName`. -/
def PostgresTable.IndexByName (t : PostgresTable) (name : String) : Option PostgresIndex :=
  t.Indexes.find? (fun i => i.Name == name)

/-- Go `PostgresTable.TriggerByName`. -/
def PostgresTable.TriggerByName (t : PostgresTable) (name : String) : Option PostgresTrigger :=
  t.Triggers.find? (fun g => g.Name == name)

/-- The added-or-modified-columns section of `PostgresTable.DiffTable`:
ADD COLUMN for a source column absent from the target; otherwise, when
the attributes differ, in-place ALTER COLUMN statements for the type,
the not-null flag and the default. -/
def PostgresTable.diffColumnsAddModStmts (t other : PostgresTable) : List GoStr :=
  t.Columns.flatMap (fun sc =>
    match other.ColumnByName sc.Name with
    | none => ["ALTER TABLE \"" ++ t.Name ++ "\" ADD COLUMN " ++ sc.String ++ ";"]
    | some tc =>
      if !(sc.HasEqualAttributes tc) then
        (if sc.Type' != tc.Type' then
          ["ALTER TABLE \"" ++ t.Name ++ "\" ALTER COLUMN \"" ++ sc.Name ++ "\" TYPE "
            ++ sc.Type' ++ ";"]
        else [])
        ++ (if sc.NotNull != tc.NotNull then
          [if sc.NotNull then
            "ALTER TABLE \"" ++ t.Name ++ "\" ALTER COLUMN \"" ++ sc.Name ++ "\" SET NOT NULL;"
          else
            "ALTER TABLE \"" ++ t.Name ++ "\" ALTER COLUMN \"" ++ sc.Name ++ "\" DROP NOT NULL;"]
        else [])
        ++ (if sc.Default ≠ tc.Default then
          [if sc.Default.Valid then
            "ALTER TABLE \"" ++ t.Name ++ "\" ALTER COLUMN \"" ++ sc.Name ++ "\" SET DEFAULT "
              ++ sc.Default.String ++ ";"
          else
            "ALTER TABLE \"" ++ t.Name ++ "\" ALTER COLUMN \"" ++ sc.Name ++ "\" DROP DEFAULT;"]
        else [])
      else [])

/-- The removed-columns section of `PostgresTable.DiffTable`. -/
def PostgresTable.diffColumnsRemovedStmts (t other : PostgresTable) : List GoStr :=
  other.Columns.flatMap (fun tc =>
    if (t.ColumnByName tc.Name).isNone then
      ["ALTER TABLE \"" ++ t.Name ++ "\" DROP COLUMN \"" ++ tc.Name ++ "\";"]
    else [])

/-- The constraints section of `PostgresTable.DiffTable`. -/
def PostgresTable.diffConstraintsStmts (t other : PostgresTable) : List GoStr :=
  (t.Constraints.flatMap (fun sc =>
    match other.ConstraintByName sc.Name with
    | none => ["ALTER TABLE \"" ++ t.Name ++ "\" ADD " ++ sc.String ++ ";"]
    | some tc =>
      if sc.Def ≠ tc.Def then
        ["ALTER TABLE \"" ++ t.Name ++ "\" DROP CONSTRAINT \"" ++ tc.Name ++ "\";",
         "ALTER TABLE \"" ++ t.Name ++ "\" ADD " ++ sc.String ++ ";"]
      else []))
  ++ other.Constraints.flatMap (fun tc =>
    if (t.ConstraintByName tc.Name).isNone then
      ["ALTER TABLE \"" ++ t.Name ++ "\" DROP CONSTRAINT \"" ++ tc.Name ++ "\";"]
    else [])

/-- The indexes section of `PostgresTable.DiffTable`. -/
def PostgresTable.diffIndexesStmts (t other : PostgresTable) : List GoStr :=
  (t.Indexes.flatMap (fun si =>
    match other.IndexByName si.Name with
    | none => [si.String]
    | some ti =>
      if si.Def ≠ ti.Def then ["DROP INDEX \"" ++ ti.Name ++ "\";", si.String] else []))
  ++ other.Indexes.flatMap (fun ti =>
    if (t.IndexByName ti.Name).isNone then ["DROP INDEX \"" ++ ti.Name ++ "\";"] else [])

/-- The triggers section of `PostgresTable.DiffTable`. -/
def PostgresTable.diffTriggersStmts (t other : PostgresTable) : List GoStr :=
  (t.Triggers.flatMap (fun sg =>
    match other.TriggerByName sg.Name with
    | none => [sg.String]
    | some tg =>
      if sg.Def ≠ tg.Def then
        ["DROP TRIGGER \"" ++ tg.Name ++ "\" ON \"" ++ t.Name ++ "\";", sg.String]
      else []))
  ++ other.Triggers.flatMap (fun tg =>
    if (t.TriggerByName tg.Name).isNone then
      ["DROP TRIGGER \"" ++ tg.Name ++ "\" ON \"" ++ t.Name ++ "\";"]
    else [])

/-- Statement list of Go `PostgresTable.DiffTable`: columns (add or
modify, then remove), constraints, indexes, triggers, every mutation an
in-place alteration. -/
def PostgresTable.DiffTableStmts (t other : PostgresTable) : List GoStr :=
  t.diffColumnsAddModStmts other ++ t.diffColumnsRemovedStmts other
    ++ t.diffConstraintsStmts other ++ t.diffIndexesStmts other ++ t.diffTriggersStmts other

/-- Go `PostgresTable.DiffTable` (the Go function's error result is
always nil): the printed statements, trimmed. -/
def PostgresTable.DiffTable (t other : PostgresTable) : GoStr :=
  trimSpace (joinStmts (t.DiffTableStmts other))

/-- Go `PostgresTable.StringCreateTable`. -/
def PostgresTable.StringCreateTable (t : PostgresTable) : GoStr :=
  "CREATE TABLE \"" ++ t.Name ++ "\" (\n"
    ++ String.intercalate ",\n"
        (t.Columns.map (fun c => "\t" ++ c.String)
          ++ t.Constraints.map (fun c => "\t" ++ c.String))
    ++ "\n);"

/-- Go `PostgresTable.String`. -/
def PostgresTable.String (t : PostgresTable) : GoStr :=
  t.StringCreateTable
    ++ String.join (t.Indexes.map (fun i => "\n" ++ i.String))
    ++ String.join (t.Triggers.map (fun g => "\n" ++ g.String))

/-- The per-table loop of Go `PostgresDriver.DiffTables`. -/
def PostgresDriver.diffTablesLoop (targetTables : List PostgresTable) :
    List PostgresTable → String → String
  | [], acc => acc
  | st :: rest, acc =>
    diffTablesLoop targetTables rest
      (match targetTables.find? (fun t => t.Name == st.Name) with
       | none => acc ++ st.String ++ "\n"
       | some tt => acc ++ st.DiffTable tt ++ "\n")

/-- The removed-tables loop of Go `PostgresDriver.DiffTables`. -/
def PostgresDriver.dropTablesLoop (sourceTables : List PostgresTable) :
    List PostgresTable → String → String
  | [], acc => acc
  | tt :: rest, acc =>
    dropTablesLoop sourceTables rest
      (if (sourceTables.find? (fun t => t.Name == tt.Name)).isSome then acc
       else acc ++ "DROP TABLE \"" ++ tt.Name ++ "\";\n")

/-- The added-or-modified-views loop of Go `PostgresDriver.DiffViews`. -/
def PostgresDriver.diffViewsLoop (targetViews : List PostgresView) :
    List PostgresView → String → String
  | [], acc => acc
  | sv :: rest, acc =>
    diffViewsLoop targetViews rest
      (match targetViews.find? (fun v => v.Name == sv.Name) with
       | none => acc ++ sv.String ++ "\n"
       | some tv =>
         if sv.Def ≠ tv.Def then
           acc ++ "DROP VIEW \"" ++ tv.Name ++ "\";\n" ++ sv.String ++ "\n"
         else acc)

/-- The removed-views loop of Go `PostgresDriver.DiffViews`. -/
def PostgresDriver.dropViewsLoop (sourceViews : List PostgresView) :
    List PostgresView → String → String
  | [], acc => acc
  | tv :: rest, acc =>
    dropViewsLoop sourceViews rest
      (if (sourceViews.find? (fun v => v.Name == tv.Name)).isSome then acc
       else acc ++ "DROP VIEW \"" ++ tv.Name ++ "\";\n")

/-- Go `PostgresDriver.DiffViews` as a function of the introspected
view lists. -/
def PostgresDriver.DiffViews (sourceViews targetViews : List PostgresView) : String :=
  trimSpace (dropViewsLoop sourceViews targetViews (diffViewsLoop targetViews sourceViews ""))

/-- Go `PostgresDriver.DiffTables` as a function of the introspected
models; it appends the views diff (via `Fprintln`) before trimming. -/
def PostgresDriver.DiffTables (sourceTables targetTables : List PostgresTable)
    (sourceViews targetViews : List PostgresView) : String :=
  trimSpace
    (dropTablesLoop sourceTables targetTables (diffTablesLoop targetTables sourceTables "")
      ++ PostgresDriver.DiffViews sourceViews targetViews ++ "\n")

/-- Go `PostgresDriver.Diff` as a function of the introspected models. -/
def PostgresDriver.Diff (sourceTables targetTables : List PostgresTable)
    (sourceViews targetViews : List PostgresView) : String :=
  trimSpace
    (PostgresDriver.DiffTables sourceTables targetTables sourceViews targetViews ++ "\n")

/-- Connection state of a driver: whether `Close` has been called on the
source and on the target connection. -/
structure DriverConnState where
  sourceClosed : Bool
  targetClosed : Bool
deriving DecidableEq

/-- Embedding of Go `SQLiteDriver.Close` (textually identical to
`PostgresDriver.Close`).  Closing a connection may return an error (the
parameters `sourceCloseErr` and `targetCloseErr`); the function closes
the source, and returns immediately on a source error — reaching the
target close only when the source close returned nil. -/
def SQLiteDriver.Close (st : DriverConnState) (sourceCloseErr targetCloseErr : Option String) :
    DriverConnState × Option String :=
  let st1 := { st with sourceClosed := true }
  match sourceCloseErr with
  | some e => (st1, some e)
  | none =>
    let st2 := { st1 with targetClosed := true }
    match targetCloseErr with
    | some e => (st2, some e)
    | none => (st2, none)

/-- Which connections a run of `NewSQLiteDriver` opened and closed. -/
structure OpenTrace where
  sourceOpened : Bool
  sourceClosed : Bool
  targetOpened : Bool
  targetClosed : Bool
deriving DecidableEq

/-- Embedding of Go `NewSQLiteDriver` (textually identical to
`NewPostgresDriver`): open the source connection (may fail), then the
target connection (may fail); on a target failure the function returns
the error without closing anything. -/
def NewSQLiteDriver (sourceOpenErr targetOpenErr : Option String) : OpenTrace × Option String :=
  match sourceOpenErr with
  | some e => (⟨false, false, false, false⟩, some e)
  | none =>
    match targetOpenErr with
    | some e => (⟨true, false, false, false⟩, some e)
    | none => (⟨true, false, true, false⟩, none)

/-- Boolean prefix test on strings (Go `strings.HasPrefix`), via the
character lists. -/
def strHasPre (s p : String) : Bool :=
  p.data.isPrefixOf s.data

/-- Two strings with distinct characters at some position differ. -/
theorem str_ne_of_data_ne {x y : String} (n : Nat) (h : x.data[n]? ≠ y.data[n]?) : x ≠ y := by
  intro he
  exact h (by rw [he])

/-- Appending a common prefix preserves a difference. -/
theorem str_cancel1_ne (a : String) {x y : String} (n : Nat) (h : x.data[n]? ≠ y.data[n]?) :
    a ++ x ≠ a ++ y := by
  intro he
  have hd := congrArg String.data he
  simp only [String.data_append] at hd
  exact h (by rw [List.append_cancel_left hd])

/-- Appending a common two-part prefix preserves a difference. -/
theorem str_cancel2_ne (a b : String) {x y : String} (n : Nat) (h : x.data[n]? ≠ y.data[n]?) :
    a ++ (b ++ x) ≠ a ++ (b ++ y) := by
  intro he
  have hd := congrArg String.data he
  simp only [String.data_append] at hd
  exact h (by rw [List.append_cancel_left (List.append_cancel_left hd)])

/-- String append is associative. -/
theorem strAssoc (a b c : String) : a ++ b ++ c = a ++ (b ++ c) := by
  cases a; cases b; cases c
  exact congrArg String.mk (by simp [String.data_append, List.append_assoc])

/-- A string whose prefix test for "_" fails does not start with an
underscore. -/
theorem head_ne_underscore_of_not_pre {T : String} (h : strHasPre T "_" = false) :
    T.data.head? ≠ some '_' := by
  cases hd : T.data with
  | nil => simp [hd]
  | cons c rest =>
    intro hc
    simp only [List.head?_cons, Option.some.injEq] at hc
    have : strHasPre T "_" = true := by
      simp [strHasPre, hd, hc, List.isPrefixOf]
    simp [this] at h

/-- Element at a position inside the left part of an append. -/
theorem getElem?_append_lit {α} (l1 l2 : List α) (n : Nat) (h : n < l1.length) :
    (l1 ++ l2)[n]? = l1[n]? :=
  List.getElem?_append_left h

/-- The last element of a cons cell. -/
theorem getLast?_cons' {α} (a : α) (l : List α) : (a :: l).getLast? = some (l.getLast?.getD a) := by
  cases l with
  | nil => rfl
  | cons b m =>
    rw [List.getLast?_cons_cons]
    induction m generalizing b with
    | nil => rfl
    | cons c m ih => rw [List.getLast?_cons_cons]; exact ih c

/-- A `find?` by projected name returns the element itself when the
projections are pairwise distinct. -/
theorem find?_name_self {α} (f : α → String) :
    ∀ (l : List α) (a : α), a ∈ l → (l.map f).Nodup →
      l.find? (fun x => f x == f a) = some a
  | [], a, ha, _ => absurd ha (List.not_mem_nil a)
  | b :: rest, a, ha, hnd => by
    have hnc : f b ∉ rest.map f ∧ (rest.map f).Nodup :=
      List.nodup_cons.mp (by simpa using hnd)
    rcases List.mem_cons.mp ha with rfl | ha'
    · simp [List.find?]
    · have hne : (f b == f a) = false := by
        apply beq_eq_false_iff_ne.mpr
        intro he
        exact hnc.1 (by rw [he]; exact List.mem_map_of_mem f ha')
      simp only [List.find?, hne]
      exact find?_name_self f rest a ha' hnc.2

/-- Two members of a list with pairwise distinct projected names and the
same name are equal. -/
theorem eq_of_name_eq {α} (f : α → String) :
    ∀ (l : List α), (l.map f).Nodup → ∀ a ∈ l, ∀ b ∈ l, f a = f b → a = b
  | [], _, a, ha, _, _, _ => absurd ha (List.not_mem_nil a)
  | x :: rest, hnd, a, ha, b, hb, hfab => by
    have hnc : f x ∉ rest.map f ∧ (rest.map f).Nodup :=
      List.nodup_cons.mp (by simpa using hnd)
    rcases List.mem_cons.mp ha with rfl | ha' <;> rcases List.mem_cons.mp hb with rfl | hb'
    · rfl
    · exact absurd (by rw [hfab]; exact List.mem_map_of_mem f hb') hnc.1
    · exact absurd (by rw [← hfab]; exact List.mem_map_of_mem f ha') hnc.1
    · exact eq_of_name_eq f rest hnc.2 a ha' b hb' hfab

/-- A `find?` over a mapped list. -/
theorem find?_over_map {α β} (f : α → β) (p : β → Bool) (l : List α) :
    (l.map f).find? p = (l.find? (fun x => p (f x))).map f :=
  List.find?_map f l

/-- Unfolding of `mapLookup` on a cons cell. -/
theorem mapLookup_cons (p : String × String) (m : List (String × String)) (k : String) :
    mapLookup (p :: m) k = if p.1 == k then some p.2 else mapLookup m k := by
  by_cases h : (p.1 == k) = true
  · simp [mapLookup, List.find?_cons_of_pos, h]
  · simp only [mapLookup, List.find?_cons_of_neg _ h]
    simp [h]

/-- Lookup after the replacing branch of `mapInsert`. -/
theorem mapLookup_replace (m : List (String × String)) (k v k' : String) :
    mapLookup (m.map (fun p => if p.1 == k then (k, v) else p)) k' =
      if k' = k then (if mapContainsKey m k then some v else none) else mapLookup m k' := by
  induction m with
  | nil => by_cases h : k' = k <;> simp [mapLookup, mapContainsKey, h]
  | cons p rest ih =>
    have hcc : mapContainsKey (p :: rest) k = ((p.1 == k) || mapContainsKey rest k) := by
      simp [mapContainsKey]
    by_cases hpk : p.1 = k
    · rw [List.map_cons, if_pos (by simp [hpk]), mapLookup_cons]
      by_cases hk : k' = k
      · subst hk
        simp only [beq_self_eq_true, if_true, hcc, if_pos]
        simp [hpk]
      · have h1 : (k == k') = false := beq_eq_false_iff_ne.mpr (Ne.symm hk)
        simp only [h1, Bool.false_eq_true, if_false, ih, if_neg hk, mapLookup_cons]
        have h2 : (p.1 == k') = false := beq_eq_false_iff_ne.mpr (by rw [hpk]; exact Ne.symm hk)
        simp [h2]
    · have hpb : (p.1 == k) = false := beq_eq_false_iff_ne.mpr hpk
      rw [List.map_cons, if_neg (by simp [hpb]), mapLookup_cons]
      by_cases hk : k' = k
      · subst hk
        have h2 : (p.1 == k') = false := beq_eq_false_iff_ne.mpr hpk
        simp only [h2, Bool.false_eq_true, if_false, ih, if_pos rfl, hcc, hpb, Bool.false_or]
        simp
      · by_cases hp2 : p.1 = k'
        · simp only [if_neg hk, mapLookup_cons]
          simp [hp2]
        · have h2 : (p.1 == k') = false := beq_eq_false_iff_ne.mpr hp2
          simp only [h2, Bool.false_eq_true, if_false, ih, if_neg hk, mapLookup_cons]

/-- Lookup of a key that is absent. -/
theorem mapLookup_eq_none_of_not_contains :
    ∀ (m : List (String × String)) (k : String),
      mapContainsKey m k = false → mapLookup m k = none
  | [], _, _ => rfl
  | p :: rest, k, h => by
    have h' : ((p.1 == k) || mapContainsKey rest k) = false := by
      simpa [mapContainsKey] using h
    rcases Bool.or_eq_false_iff.mp h' with ⟨h1, h2⟩
    rw [mapLookup_cons, if_neg (by simp [h1])]
    exact mapLookup_eq_none_of_not_contains rest k h2

/-- Lookup after appending a fresh key-value pair. -/
theorem mapLookup_append_single :
    ∀ (m : List (String × String)) (k v k' : String),
      mapContainsKey m k = false →
      mapLookup (m ++ [(k, v)]) k' = if k' = k then some v else mapLookup m k'
  | [], k, v, k', _ => by
    by_cases hk : k' = k
    · subst hk; simp [mapLookup_cons]
    · have h1 : (k == k') = false := beq_eq_false_iff_ne.mpr (Ne.symm hk)
      simp [mapLookup_cons, h1, if_neg hk, mapLookup]
  | p :: rest, k, v, k', h => by
    have h' : ((p.1 == k) || mapContainsKey rest k) = false := by
      simpa [mapContainsKey] using h
    rcases Bool.or_eq_false_iff.mp h' with ⟨h1, h2⟩
    rw [List.cons_append, mapLookup_cons, mapLookup_cons]
    by_cases hp : (p.1 == k') = true
    · have hk : k' ≠ k := by
        intro he
        rw [he] at hp
        simp [hp] at h1
      simp [hp, if_neg hk]
    · simp only [hp, Bool.false_eq_true, if_false]
      exact mapLookup_append_single rest k v k' h2

/-- Lookup after a Go map assignment. -/
theorem mapLookup_mapInsert (m : List (String × String)) (k v k' : String) :
    mapLookup (mapInsert m k v) k' = if k' = k then some v else mapLookup m k' := by
  by_cases hc : mapContainsKey m k
  · rw [mapInsert, if_pos hc, mapLookup_replace]
    by_cases hk : k' = k <;> simp [hk, hc]
  · rw [mapInsert, if_neg hc]
    exact mapLookup_append_single m k v k' (by simpa using hc)

/-- Classification predicate: the source column `c` ends up in the
`Added` list of `DiffColumns`. -/
def SQLiteTable.addedPredB (t other : SQLiteTable) (c : SQLiteColumn) : Bool :=
  match other.ColumnByName c.Name with
  | none => (t.renameTargetFor other c).isNone
  | some tc => decide (c ≠ tc) && decide (c.Type' ≠ tc.Type') && !(c.IsTypeChangeCompatible tc)

/-- Classification predicate: the source column `c` ends up in the
`Modified` list of `DiffColumns`. -/
def SQLiteTable.modifiedPredB (t other : SQLiteTable) (c : SQLiteColumn) : Bool :=
  match other.ColumnByName c.Name with
  | none => false
  | some tc => decide (c ≠ tc) && (decide (c.Type' = tc.Type') || c.IsTypeChangeCompatible tc)

/-- Classification predicate: the source column `c` contributes its name
to the `Removed` list in the first loop of `DiffColumns` (the
incompatible-type-change case). -/
def SQLiteTable.removedPred1B (t other : SQLiteTable) (c : SQLiteColumn) : Bool :=
  match other.ColumnByName c.Name with
  | none => false
  | some tc => decide (c ≠ tc) && decide (c.Type' ≠ tc.Type') && !(c.IsTypeChangeCompatible tc)

/-- Classification predicate: processing the source column `c` writes
the rename-map entry under key `k`. -/
def SQLiteTable.renMatchB (t other : SQLiteTable) (k : GoStr) (c : SQLiteColumn) : Bool :=
  (other.ColumnByName c.Name).isNone
    && ((t.renameTargetFor other c).map SQLiteColumn.Name == some k)

/-- A name found by `ColumnByName` is the name that was looked up. -/
theorem SQLiteTable.ColumnByName_name {t : SQLiteTable} {n : GoStr} {c : SQLiteColumn}
    (h : t.ColumnByName n = some c) : c.Name = n := by
  unfold SQLiteTable.ColumnByName at h
  have hp := @List.find?_some SQLiteColumn (fun x => x.Name == n) c t.Columns h
  exact eq_of_beq (by simpa using hp)

theorem SQLiteTable.diffColumnsStep_Added (t other : SQLiteTable)
    (acc : SQLiteTableColumnsDiff) (c : SQLiteColumn) :
    (t.diffColumnsStep other acc c).Added =
      acc.Added ++ (if t.addedPredB other c then [c.Name] else []) := by
  unfold SQLiteTable.diffColumnsStep SQLiteTable.addedPredB
  cases hf : other.ColumnByName c.Name with
  | none =>
    cases hr : t.renameTargetFor other c with
    | none => simp [hr]
    | some tc => simp [hr]
  | some tc =>
    by_cases he : c = tc
    · simp [he]
    · by_cases hty : c.Type' = tc.Type'
      · simp [he, hty]
      · cases hcp : c.IsTypeChangeCompatible tc <;> simp [he, hty, hcp]

theorem SQLiteTable.diffColumnsStep_Modified (t other : SQLiteTable)
    (acc : SQLiteTableColumnsDiff) (c : SQLiteColumn) :
    (t.diffColumnsStep other acc c).Modified =
      acc.Modified ++ (if t.modifiedPredB other c then [c.Name] else []) := by
  unfold SQLiteTable.diffColumnsStep SQLiteTable.modifiedPredB
  cases hf : other.ColumnByName c.Name with
  | none =>
    cases hr : t.renameTargetFor other c with
    | none => simp [hr]
    | some tc => simp [hr]
  | some tc =>
    by_cases he : c = tc
    · simp [he]
    · by_cases hty : c.Type' = tc.Type'
      · simp [he, hty]
      · cases hcp : c.IsTypeChangeCompatible tc <;> simp [he, hty, hcp]

theorem SQLiteTable.diffColumnsStep_Removed (t other : SQLiteTable)
    (acc : SQLiteTableColumnsDiff) (c : SQLiteColumn) :
    (t.diffColumnsStep other acc c).Removed =
      acc.Removed ++ (if t.removedPred1B other c then [c.Name] else []) := by
  unfold SQLiteTable.diffColumnsStep SQLiteTable.removedPred1B
  cases hf : other.ColumnByName c.Name with
  | none =>
    cases hr : t.renameTargetFor other c with
    | none => simp [hr]
    | some tc => simp [hr]
  | some tc =>
    have hname : tc.Name = c.Name := SQLiteTable.ColumnByName_name hf
    by_cases he : c = tc
    · simp [he]
    · by_cases hty : c.Type' = tc.Type'
      · simp [he, hty]
      · cases hcp : c.IsTypeChangeCompatible tc <;> simp [he, hty, hcp, hname]

theorem SQLiteTable.diffColumnsStep_Renamed_lookup (t other : SQLiteTable)
    (acc : SQLiteTableColumnsDiff) (c : SQLiteColumn) (k : GoStr) :
    mapLookup (t.diffColumnsStep other acc c).Renamed k =
      if t.renMatchB other k c then some c.Name else mapLookup acc.Renamed k := by
  unfold SQLiteTable.diffColumnsStep SQLiteTable.renMatchB
  cases hf : other.ColumnByName c.Name with
  | none =>
    cases hr : t.renameTargetFor other c with
    | none => simp [hr]
    | some tc =>
      simp only [hr, Option.map_some, Option.isNone_none, Bool.true_and]
      rw [mapLookup_mapInsert]
      by_cases hk : tc.Name = k
      · simp [hk]
      · have : (some tc.Name == some k) = false := by
          simp [hk]
        simp [this, if_neg (Ne.symm hk)]
  | some tc =>
    by_cases he : c = tc
    · simp [he]
    · by_cases hty : c.Type' = tc.Type'
      · simp [he, hty]
      · cases hcp : c.IsTypeChangeCompatible tc <;> simp [he, hty, hcp]

theorem SQLiteTable.diffColumnsLoop1_Added (t other : SQLiteTable) :
    ∀ (l : List SQLiteColumn) (acc : SQLiteTableColumnsDiff),
      (t.diffColumnsLoop1 other l acc).Added =
        acc.Added ++ (l.filter (t.addedPredB other)).map SQLiteColumn.Name
  | [], acc => by simp [SQLiteTable.diffColumnsLoop1]
  | c :: rest, acc => by
    rw [SQLiteTable.diffColumnsLoop1, diffColumnsLoop1_Added t other rest,
      SQLiteTable.diffColumnsStep_Added]
    cases h : t.addedPredB other c <;>
      simp [List.filter_cons, h, List.append_assoc]

theorem SQLiteTable.diffColumnsLoop1_Modified (t other : SQLiteTable) :
    ∀ (l : List SQLiteColumn) (acc : SQLiteTableColumnsDiff),
      (t.diffColumnsLoop1 other l acc).Modified =
        acc.Modified ++ (l.filter (t.modifiedPredB other)).map SQLiteColumn.Name
  | [], acc => by simp [SQLiteTable.diffColumnsLoop1]
  | c :: rest, acc => by
    rw [SQLiteTable.diffColumnsLoop1, diffColumnsLoop1_Modified t other rest,
      SQLiteTable.diffColumnsStep_Modified]
    cases h : t.modifiedPredB other c <;>
      simp [List.filter_cons, h, List.append_assoc]

theorem SQLiteTable.diffColumnsLoop1_Removed (t other : SQLiteTable) :
    ∀ (l : List SQLiteColumn) (acc : SQLiteTableColumnsDiff),
      (t.diffColumnsLoop1 other l acc).Removed =
        acc.Removed ++ (l.filter (t.removedPred1B other)).map SQLiteColumn.Name
  | [], acc => by simp [SQLiteTable.diffColumnsLoop1]
  | c :: rest, acc => by
    rw [SQLiteTable.diffColumnsLoop1, diffColumnsLoop1_Removed t other rest,
      SQLiteTable.diffColumnsStep_Removed]
    cases h : t.removedPred1B other c <;>
      simp [List.filter_cons, h, List.append_assoc]

theorem SQLiteTable.diffColumnsLoop1_Renamed_lookup (t other : SQLiteTable) (k : GoStr) :
    ∀ (l : List SQLiteColumn) (acc : SQLiteTableColumnsDiff),
      mapLookup (t.diffColumnsLoop1 other l acc).Renamed k =
        match (l.filter (t.renMatchB other k)).getLast? with
        | some c => some c.Name
        | none => mapLookup acc.Renamed k
  | [], acc => by simp [SQLiteTable.diffColumnsLoop1]
  | c :: rest, acc => by
    rw [SQLiteTable.diffColumnsLoop1, diffColumnsLoop1_Renamed_lookup t other k rest]
    cases h : t.renMatchB other k c with
    | false =>
      rw [SQLiteTable.diffColumnsStep_Renamed_lookup]
      simp [List.filter_cons, h]
    | true =>
      rw [SQLiteTable.diffColumnsStep_Renamed_lookup]
      simp only [List.filter_cons, h, if_true, getLast?_cons']
      cases hg : (rest.filter (t.renMatchB other k)).getLast? with
      | none => simp [h]
      | some c' => simp [h]

/-- The `Added` list of `DiffColumns`, extensionally. -/
theorem SQLiteTable.DiffColumns_Added (t other : SQLiteTable) :
    (t.DiffColumns other).Added =
      (t.Columns.filter (t.addedPredB other)).map SQLiteColumn.Name := by
  unfold SQLiteTable.DiffColumns
  simp [SQLiteTable.diffColumnsLoop1_Added]

/-- The `Modified` list of `DiffColumns`, extensionally. -/
theorem SQLiteTable.DiffColumns_Modified (t other : SQLiteTable) :
    (t.DiffColumns other).Modified =
      (t.Columns.filter (t.modifiedPredB other)).map SQLiteColumn.Name := by
  unfold SQLiteTable.DiffColumns
  simp [SQLiteTable.diffColumnsLoop1_Modified]

/-- The rename map of `DiffColumns`, extensionally: the value stored
under a key is the name of the *last* source column whose processing
wrote that key. -/
theorem SQLiteTable.DiffColumns_Renamed_lookup (t other : SQLiteTable) (k : GoStr) :
    mapLookup (t.DiffColumns other).Renamed k =
      ((t.Columns.filter (t.renMatchB other k)).getLast?).map SQLiteColumn.Name := by
  unfold SQLiteTable.DiffColumns
  simp only
  rw [SQLiteTable.diffColumnsLoop1_Renamed_lookup]
  cases hg : (t.Columns.filter (t.renMatchB other k)).getLast? with
  | none => simp [mapLookup]
  | some c => simp

/-- The `ForeignKeysChanged` flag of `DiffColumns` is the foreign-key
comparison. -/
theorem SQLiteTable.DiffColumns_FK (t other : SQLiteTable) :
    (t.DiffColumns other).ForeignKeysChanged = t.foreignKeysChangedCheck other := by
  unfold SQLiteTable.DiffColumns
  simp

/-- The `Renamed` list of `DiffColumns` is unchanged by the second loop
and the foreign-key check. -/
theorem SQLiteTable.DiffColumns_Renamed_eq (t other : SQLiteTable) :
    (t.DiffColumns other).Renamed =
      (t.diffColumnsLoop1 other t.Columns ⟨[], [], [], [], false⟩).Renamed := by
  unfold SQLiteTable.DiffColumns
  simp

theorem SQLiteTable.diffColumnsLoop2_spec (t : SQLiteTable) (ren : List (GoStr × GoStr)) :
    ∀ (l : List SQLiteColumn) (acc : List GoStr),
      t.diffColumnsLoop2 ren l acc =
        acc ++ (l.filter (fun tc =>
          (t.ColumnByName tc.Name).isNone && !((ren.map Prod.fst).contains tc.Name))).map
            SQLiteColumn.Name
  | [], acc => by simp [SQLiteTable.diffColumnsLoop2]
  | tc :: rest, acc => by
    rw [SQLiteTable.diffColumnsLoop2, diffColumnsLoop2_spec t ren rest, List.filter_cons]
    by_cases h : ((t.ColumnByName tc.Name).isNone && !((ren.map Prod.fst).contains tc.Name)) = true
    · rw [if_pos h, if_pos h]
      try simp [List.append_assoc]
    · rw [if_neg h, if_neg h]
      try simp [List.append_assoc]

/-- The `Removed` list of `DiffColumns`, extensionally: the
incompatible-type names from the first loop followed by the names of the
target columns absent from the source and not renamed. -/
theorem SQLiteTable.DiffColumns_Removed (t other : SQLiteTable) :
    (t.DiffColumns other).Removed =
      (t.Columns.filter (t.removedPred1B other)).map SQLiteColumn.Name
        ++ (other.Columns.filter (fun tc =>
              (t.ColumnByName tc.Name).isNone
                && !(((t.DiffColumns other).Renamed.map Prod.fst).contains tc.Name))).map
              SQLiteColumn.Name := by
  rw [SQLiteTable.DiffColumns_Renamed_eq]
  unfold SQLiteTable.DiffColumns
  simp only
  rw [SQLiteTable.diffColumnsLoop2_spec, SQLiteTable.diffColumnsLoop1_Removed]
  simp

theorem SQLiteForeignKey.Equal_refl (fk : SQLiteForeignKey) : fk.Equal fk = true := by
  simp [SQLiteForeignKey.Equal]

/-- `SQLiteForeignKey.Equal` decides structural equality. -/
theorem SQLiteForeignKey.Equal_iff (fk other : SQLiteForeignKey) :
    fk.Equal other = true ↔ fk = other := by
  constructor
  · intro h
    unfold SQLiteForeignKey.Equal at h
    by_cases h1 : (fk.Table != other.Table || fk.OnUpdate != other.OnUpdate
        || fk.OnDelete != other.OnDelete) = true
    · rw [if_pos h1] at h; cases h
    · rw [if_neg h1] at h
      by_cases h2 : (fk.From.length != other.From.length
          || fk.To.length != other.To.length) = true
      · rw [if_pos h2] at h; cases h
      · rw [if_neg h2] at h
        simp only [Bool.or_eq_true, not_or, bne_iff_ne, not_not] at h1
        simp only [Bool.and_eq_true, beq_iff_eq] at h
        cases fk; cases other
        simp_all
  · rintro rfl
    exact SQLiteForeignKey.Equal_refl fk

theorem SQLiteIndex.Equal_refl_index (i : SQLiteIndex) : i.Equal i = true := by
  simp [SQLiteIndex.Equal]

theorem SQLiteTable.ColumnByName_self (t : SQLiteTable) (c : SQLiteColumn)
    (hc : c ∈ t.Columns) (hnd : (t.Columns.map SQLiteColumn.Name).Nodup) :
    t.ColumnByName c.Name = some c :=
  find?_name_self SQLiteColumn.Name t.Columns c hc hnd

theorem SQLiteTable.IndexByName_self (t : SQLiteTable) (i : SQLiteIndex)
    (hi : i ∈ t.Indexes) (hnd : (t.Indexes.map SQLiteIndex.Name).Nodup) :
    t.IndexByName i.Name = some i :=
  find?_name_self SQLiteIndex.Name t.Indexes i hi hnd

theorem SQLiteTable.TriggerByName_self (t : SQLiteTable) (g : SQLiteTrigger)
    (hg : g ∈ t.Triggers) (hnd : (t.Triggers.map SQLiteTrigger.Name).Nodup) :
    t.TriggerByName g.Name = some g :=
  find?_name_self SQLiteTrigger.Name t.Triggers g hg hnd

theorem SQLiteTable.diffColumnsLoop1_self (t : SQLiteTable)
    (hnd : (t.Columns.map SQLiteColumn.Name).Nodup) :
    ∀ (l : List SQLiteColumn), (∀ c ∈ l, c ∈ t.Columns) →
      ∀ acc, t.diffColumnsLoop1 t l acc = acc
  | [], _, acc => rfl
  | c :: rest, hl, acc => by
    have hc : t.ColumnByName c.Name = some c :=
      SQLiteTable.ColumnByName_self t c (hl c (by simp)) hnd
    rw [SQLiteTable.diffColumnsLoop1]
    have hstep : t.diffColumnsStep t acc c = acc := by
      unfold SQLiteTable.diffColumnsStep
      rw [hc]
      simp
    rw [hstep]
    exact diffColumnsLoop1_self t hnd rest (fun x hx => hl x (by simp [hx])) acc

theorem SQLiteTable.diffColumnsLoop2_allfound (t : SQLiteTable) (ren : List (GoStr × GoStr)) :
    ∀ (l : List SQLiteColumn), (∀ c ∈ l, (t.ColumnByName c.Name).isSome) →
      ∀ acc, t.diffColumnsLoop2 ren l acc = acc
  | [], _, acc => rfl
  | c :: rest, hl, acc => by
    have hc : (t.ColumnByName c.Name).isNone = false := by
      have := hl c (by simp)
      cases h : t.ColumnByName c.Name with
      | none => rw [h] at this; cases this
      | some x => simp
    rw [SQLiteTable.diffColumnsLoop2, hc]
    simp only [Bool.false_and, Bool.false_eq_true, if_false]
    exact diffColumnsLoop2_allfound t ren rest (fun x hx => hl x (by simp [hx])) acc

theorem SQLiteTable.foreignKeysChangedCheck_self (t : SQLiteTable) :
    t.foreignKeysChangedCheck t = false := by
  unfold SQLiteTable.foreignKeysChangedCheck
  rw [if_neg (by simp)]
  rw [List.any_eq_false]
  intro sfk hs
  have hin : t.ForeignKeys.any (fun tfk => tfk.Equal sfk) = true :=
    List.any_eq_true.mpr ⟨sfk, hs, SQLiteForeignKey.Equal_refl sfk⟩
  simp [hin]

/-- Diffing the column list of a table against itself classifies
nothing, provided the column names are pairwise distinct. -/
theorem SQLiteTable.DiffColumns_self (t : SQLiteTable)
    (hnd : (t.Columns.map SQLiteColumn.Name).Nodup) :
    t.DiffColumns t = ⟨[], [], [], [], false⟩ := by
  unfold SQLiteTable.DiffColumns
  rw [SQLiteTable.diffColumnsLoop1_self t hnd t.Columns (fun c hc => hc)]
  simp only
  rw [SQLiteTable.diffColumnsLoop2_allfound t [] t.Columns
    (fun c hc => by rw [SQLiteTable.ColumnByName_self t c hc hnd]; rfl)]
  rw [SQLiteTable.foreignKeysChangedCheck_self]

/-- Diffing a table against itself with any possible rename iteration
order prints nothing. -/
theorem SQLiteTable.DiffTableWith_self (t : SQLiteTable) (ord : List (GoStr × GoStr))
    (hord : ord.Perm (t.DiffColumns t).Renamed)
    (hnd : (t.Columns.map SQLiteColumn.Name).Nodup) :
    t.DiffTableWith ord t = .ok "" := by
  have hcd := SQLiteTable.DiffColumns_self t hnd
  have hordnil : ord = [] := by
    rw [hcd] at hord
    exact List.Perm.eq_nil hord
  subst hordnil
  unfold SQLiteTable.DiffTableWith SQLiteTable.DiffTableStmtsWith
  rw [hcd]
  rfl

/-- Helper: a flatMap whose pieces are all empty is empty. -/
theorem flatMap_nil_of {α β} :
    ∀ (l : List α) (f : α → List β), (∀ x ∈ l, f x = []) → l.flatMap f = []
  | [], _, _ => rfl
  | x :: rest, f, h => by
    rw [List.flatMap_cons, h x (by simp), List.nil_append]
    exact flatMap_nil_of rest f (fun y hy => h y (by simp [hy]))

theorem SQLiteTable.diffIndexesStmts_self (t : SQLiteTable)
    (hnd : (t.Indexes.map SQLiteIndex.Name).Nodup) :
    t.diffIndexesStmts t = [] := by
  unfold SQLiteTable.diffIndexesStmts
  rw [flatMap_nil_of t.Indexes _ (fun i hi => by
    rw [SQLiteTable.IndexByName_self t i hi hnd]
    simp [SQLiteIndex.Equal_refl_index])]
  rw [flatMap_nil_of t.Indexes _ (fun i hi => by
    rw [SQLiteTable.IndexByName_self t i hi hnd]
    simp)]
  rfl

theorem SQLiteTable.diffTriggersStmts_self (t : SQLiteTable)
    (hnd : (t.Triggers.map SQLiteTrigger.Name).Nodup) :
    t.diffTriggersStmts t = [] := by
  unfold SQLiteTable.diffTriggersStmts
  rw [flatMap_nil_of t.Triggers _ (fun g hg => by
    rw [SQLiteTable.TriggerByName_self t g hg hnd]
    simp)]
  rw [flatMap_nil_of t.Triggers _ (fun g hg => by
    rw [SQLiteTable.TriggerByName_self t g hg hnd]
    simp)]
  rfl

/-- A string made of whitespace characters only trims to the empty
string. -/
theorem trimSpace_eq_empty {s : String} (h : ∀ c ∈ s.data, isSpaceGo c = true) :
    trimSpace s = "" := by
  unfold trimSpace
  rw [List.dropWhile_eq_nil_iff.mpr h]
  rfl

theorem isSpaceGo_append {a b : String} (ha : ∀ c ∈ a.data, isSpaceGo c = true)
    (hb : ∀ c ∈ b.data, isSpaceGo c = true) :
    ∀ c ∈ (a ++ b).data, isSpaceGo c = true := by
  intro c hc
  rw [String.data_append] at hc
  rcases List.mem_append.mp hc with h | h
  · exact ha c h
  · exact hb c h

theorem isSpaceGo_empty : ∀ c ∈ ("" : String).data, isSpaceGo c = true := by
  intro c hc
  cases hc

theorem isSpaceGo_newline : ∀ c ∈ ("\n" : String).data, isSpaceGo c = true := by
  intro c hc
  simp only [show ("\n" : String).data = ['\n'] from rfl, List.mem_singleton] at hc
  subst hc
  rfl

theorem SQLiteDriver.diffTablesLoop_self
    (ords : SQLiteTable → SQLiteTable → List (String × String))
    (hords : ∀ a b, (ords a b).Perm ((a.DiffColumns b).Renamed))
    (tables : List SQLiteTable)
    (hnd : (tables.map SQLiteTable.Name).Nodup)
    (hcols : ∀ u ∈ tables, (u.Columns.map SQLiteColumn.Name).Nodup)
    (hidx : ∀ u ∈ tables, (u.Indexes.map SQLiteIndex.Name).Nodup)
    (htrg : ∀ u ∈ tables, (u.Triggers.map SQLiteTrigger.Name).Nodup) :
    ∀ (l : List SQLiteTable), (∀ u ∈ l, u ∈ tables) →
      ∀ (acc : String), (∀ c ∈ acc.data, isSpaceGo c = true) →
        ∃ acc', SQLiteDriver.diffTablesLoop ords tables l acc = .ok acc' ∧
          (∀ c ∈ acc'.data, isSpaceGo c = true)
  | [], _, acc, hacc => ⟨acc, rfl, hacc⟩
  | st :: rest, hl, acc, hacc => by
    have hst : st ∈ tables := hl st (by simp)
    have hfind : tables.find? (fun t => t.Name == st.Name) = some st :=
      find?_name_self SQLiteTable.Name tables st hst hnd
    have hdt : st.DiffTableWith (ords st st) st = .ok "" :=
      SQLiteTable.DiffTableWith_self st (ords st st) (hords st st) (hcols st hst)
    have hdi : st.DiffIndexes st = "" := by
      unfold SQLiteTable.DiffIndexes
      rw [SQLiteTable.diffIndexesStmts_self st (hidx st hst)]
      rfl
    have hdg : st.DiffTriggers st = "" := by
      unfold SQLiteTable.DiffTriggers
      rw [SQLiteTable.diffTriggersStmts_self st (htrg st hst)]
      rfl
    rw [SQLiteDriver.diffTablesLoop, hfind]
    simp only [hdt, hdi, hdg]
    exact diffTablesLoop_self ords hords tables hnd hcols hidx htrg rest
      (fun u hu => hl u (by simp [hu]))
      (acc ++ "" ++ "\n" ++ "" ++ "\n" ++ "" ++ "\n")
      (isSpaceGo_append (isSpaceGo_append (isSpaceGo_append (isSpaceGo_append
        (isSpaceGo_append (isSpaceGo_append hacc isSpaceGo_empty) isSpaceGo_newline)
        isSpaceGo_empty) isSpaceGo_newline) isSpaceGo_empty) isSpaceGo_newline)

theorem SQLiteDriver.dropTablesLoop_allfound (sourceTables : List SQLiteTable) :
    ∀ (l : List SQLiteTable),
      (∀ u ∈ l, (sourceTables.find? (fun t => t.Name == u.Name)).isSome) →
      ∀ acc, SQLiteDriver.dropTablesLoop sourceTables l acc = acc
  | [], _, acc => rfl
  | tt :: rest, hl, acc => by
    rw [SQLiteDriver.dropTablesLoop, if_pos (hl tt (by simp))]
    exact dropTablesLoop_allfound sourceTables rest (fun u hu => hl u (by simp [hu])) acc

theorem SQLiteDriver.diffViewsLoop_self (views : List SQLiteView)
    (hnd : (views.map SQLiteView.Name).Nodup) :
    ∀ (l : List SQLiteView), (∀ v ∈ l, v ∈ views) →
      ∀ (acc : String), (∀ c ∈ acc.data, isSpaceGo c = true) →
        (∀ c ∈ (SQLiteDriver.diffViewsLoop views l acc).data, isSpaceGo c = true)
  | [], _, acc, hacc => hacc
  | sv :: rest, hl, acc, hacc => by
    have hfind : views.find? (fun v => v.Name == sv.Name) = some sv :=
      find?_name_self SQLiteView.Name views sv (hl sv (by simp)) hnd
    have hdv : sv.Diff sv = "" := by
      unfold SQLiteView.Diff
      rw [if_neg (by simp)]
      exact trimSpace_eq_empty isSpaceGo_empty
    rw [SQLiteDriver.diffViewsLoop, hfind]
    simp only [hdv]
    exact diffViewsLoop_self views hnd rest (fun v hv => hl v (by simp [hv]))
      (acc ++ "" ++ "\n")
      (isSpaceGo_append (isSpaceGo_append hacc isSpaceGo_empty) isSpaceGo_newline)

theorem SQLiteDriver.dropViewsLoop_allfound (sourceViews : List SQLiteView) :
    ∀ (l : List SQLiteView),
      (∀ v ∈ l, (sourceViews.find? (fun x => x.Name == v.Name)).isSome) →
      ∀ acc, SQLiteDriver.dropViewsLoop sourceViews l acc = acc
  | [], _, acc => rfl
  | tv :: rest, hl, acc => by
    rw [SQLiteDriver.dropViewsLoop, if_pos (hl tv (by simp))]
    exact dropViewsLoop_allfound sourceViews rest (fun v hv => hl v (by simp [hv])) acc

theorem SQLiteDriver.DiffViews_self (views : List SQLiteView)
    (hnd : (views.map SQLiteView.Name).Nodup) :
    SQLiteDriver.DiffViews views views = "" := by
  unfold SQLiteDriver.DiffViews
  rw [SQLiteDriver.dropViewsLoop_allfound views views
    (fun v hv => by
      rw [find?_name_self SQLiteView.Name views v hv hnd]
      rfl)]
  exact trimSpace_eq_empty
    (SQLiteDriver.diffViewsLoop_self views hnd views (fun v hv => hv) "" isSpaceGo_empty)

theorem SQLiteDriver.DiffTablesWith_self
    (ords : SQLiteTable → SQLiteTable → List (String × String))
    (hords : ∀ a b, (ords a b).Perm ((a.DiffColumns b).Renamed))
    (tables : List SQLiteTable)
    (hnd : (tables.map SQLiteTable.Name).Nodup)
    (hcols : ∀ u ∈ tables, (u.Columns.map SQLiteColumn.Name).Nodup)
    (hidx : ∀ u ∈ tables, (u.Indexes.map SQLiteIndex.Name).Nodup)
    (htrg : ∀ u ∈ tables, (u.Triggers.map SQLiteTrigger.Name).Nodup) :
    SQLiteDriver.DiffTablesWith ords tables tables = .ok "" := by
  obtain ⟨acc', hacc', hsp⟩ :=
    SQLiteDriver.diffTablesLoop_self ords hords tables hnd hcols hidx htrg tables
      (fun u hu => hu) "" isSpaceGo_empty
  unfold SQLiteDriver.DiffTablesWith
  rw [hacc']
  simp only
  rw [SQLiteDriver.dropTablesLoop_allfound tables tables
    (fun u hu => by
      rw [find?_name_self SQLiteTable.Name tables u hu hnd]
      rfl)]
  rw [trimSpace_eq_empty hsp]

theorem PostgresColumn.HasEqualAttributes_self (c : PostgresColumn) :
    c.HasEqualAttributes c = true := by
  simp [PostgresColumn.HasEqualAttributes]

theorem PostgresTable.diffColumnsAddModStmts_self (t : PostgresTable)
    (hnd : (t.Columns.map PostgresColumn.Name).Nodup) :
    t.diffColumnsAddModStmts t = [] := by
  unfold PostgresTable.diffColumnsAddModStmts
  exact flatMap_nil_of t.Columns _ (fun c hc => by
    rw [show t.ColumnByName c.Name = some c from
      find?_name_self PostgresColumn.Name t.Columns c hc hnd]
    simp [PostgresColumn.HasEqualAttributes_self])

theorem PostgresTable.diffColumnsRemovedStmts_self (t : PostgresTable)
    (hnd : (t.Columns.map PostgresColumn.Name).Nodup) :
    t.diffColumnsRemovedStmts t = [] := by
  unfold PostgresTable.diffColumnsRemovedStmts
  exact flatMap_nil_of t.Columns _ (fun c hc => by
    rw [show t.ColumnByName c.Name = some c from
      find?_name_self PostgresColumn.Name t.Columns c hc hnd]
    simp)

theorem PostgresTable.diffConstraintsStmts_self (t : PostgresTable)
    (hnd : (t.Constraints.map PostgresConstraint.Name).Nodup) :
    t.diffConstraintsStmts t = [] := by
  unfold PostgresTable.diffConstraintsStmts
  rw [flatMap_nil_of t.Constraints _ (fun c hc => by
    rw [show t.ConstraintByName c.Name = some c from
      find?_name_self PostgresConstraint.Name t.Constraints c hc hnd]
    simp)]
  rw [flatMap_nil_of t.Constraints _ (fun c hc => by
    rw [show t.ConstraintByName c.Name = some c from
      find?_name_self PostgresConstraint.Name t.Constraints c hc hnd]
    simp)]
  rfl

theorem PostgresTable.diffIndexesStmts_self_pg (t : PostgresTable)
    (hnd : (t.Indexes.map PostgresIndex.Name).Nodup) :
    t.diffIndexesStmts t = [] := by
  unfold PostgresTable.diffIndexesStmts
  rw [flatMap_nil_of t.Indexes _ (fun i hi => by
    rw [show t.IndexByName i.Name = some i from
      find?_name_self PostgresIndex.Name t.Indexes i hi hnd]
    simp)]
  rw [flatMap_nil_of t.Indexes _ (fun i hi => by
    rw [show t.IndexByName i.Name = some i from
      find?_name_self PostgresIndex.Name t.Indexes i hi hnd]
    simp)]
  rfl

theorem PostgresTable.diffTriggersStmts_self_pg (t : PostgresTable)
    (hnd : (t.Triggers.map PostgresTrigger.Name).Nodup) :
    t.diffTriggersStmts t = [] := by
  unfold PostgresTable.diffTriggersStmts
  rw [flatMap_nil_of t.Triggers _ (fun g hg => by
    rw [show t.TriggerByName g.Name = some g from
      find?_name_self PostgresTrigger.Name t.Triggers g hg hnd]
    simp)]
  rw [flatMap_nil_of t.Triggers _ (fun g hg => by
    rw [show t.TriggerByName g.Name = some g from
      find?_name_self PostgresTrigger.Name t.Triggers g hg hnd]
    simp)]
  rfl

/-- Diffing a PostgreSQL table against itself prints nothing, provided
each kind of member has pairwise distinct names. -/
theorem PostgresTable.DiffTable_self (t : PostgresTable)
    (hc : (t.Columns.map PostgresColumn.Name).Nodup)
    (hk : (t.Constraints.map PostgresConstraint.Name).Nodup)
    (hi : (t.Indexes.map PostgresIndex.Name).Nodup)
    (hg : (t.Triggers.map PostgresTrigger.Name).Nodup) :
    t.DiffTable t = "" := by
  unfold PostgresTable.DiffTable PostgresTable.DiffTableStmts
  rw [PostgresTable.diffColumnsAddModStmts_self t hc,
    PostgresTable.diffColumnsRemovedStmts_self t hc,
    PostgresTable.diffConstraintsStmts_self t hk,
    PostgresTable.diffIndexesStmts_self_pg t hi,
    PostgresTable.diffTriggersStmts_self_pg t hg]
  rfl

theorem PostgresDriver.diffTablesLoop_self_pg (tables : List PostgresTable)
    (hnd : (tables.map PostgresTable.Name).Nodup)
    (hcols : ∀ u ∈ tables, (u.Columns.map PostgresColumn.Name).Nodup)
    (hcons : ∀ u ∈ tables, (u.Constraints.map PostgresConstraint.Name).Nodup)
    (hidx : ∀ u ∈ tables, (u.Indexes.map PostgresIndex.Name).Nodup)
    (htrg : ∀ u ∈ tables, (u.Triggers.map PostgresTrigger.Name).Nodup) :
    ∀ (l : List PostgresTable), (∀ u ∈ l, u ∈ tables) →
      ∀ (acc : String), (∀ c ∈ acc.data, isSpaceGo c = true) →
        (∀ c ∈ (PostgresDriver.diffTablesLoop tables l acc).data, isSpaceGo c = true)
  | [], _, acc, hacc => hacc
  | st :: rest, hl, acc, hacc => by
    have hst : st ∈ tables := hl st (by simp)
    have hfind : tables.find? (fun t => t.Name == st.Name) = some st :=
      find?_name_self PostgresTable.Name tables st hst hnd
    have hdt : st.DiffTable st = "" :=
      PostgresTable.DiffTable_self st (hcols st hst) (hcons st hst) (hidx st hst) (htrg st hst)
    rw [PostgresDriver.diffTablesLoop, hfind]
    simp only [hdt]
    exact diffTablesLoop_self_pg tables hnd hcols hcons hidx htrg rest
      (fun u hu => hl u (by simp [hu]))
      (acc ++ "" ++ "\n")
      (isSpaceGo_append (isSpaceGo_append hacc isSpaceGo_empty) isSpaceGo_newline)

theorem PostgresDriver.dropTablesLoop_allfound_pg (sourceTables : List PostgresTable) :
    ∀ (l : List PostgresTable),
      (∀ u ∈ l, (sourceTables.find? (fun t => t.Name == u.Name)).isSome) →
      ∀ acc, PostgresDriver.dropTablesLoop sourceTables l acc = acc
  | [], _, acc => rfl
  | tt :: rest, hl, acc => by
    rw [PostgresDriver.dropTablesLoop, if_pos (hl tt (by simp))]
    exact dropTablesLoop_allfound_pg sourceTables rest (fun u hu => hl u (by simp [hu])) acc

theorem PostgresDriver.diffViewsLoop_self_pg (views : List PostgresView)
    (hnd : (views.map PostgresView.Name).Nodup) :
    ∀ (l : List PostgresView), (∀ v ∈ l, v ∈ views) →
      ∀ (acc : String), (∀ c ∈ acc.data, isSpaceGo c = true) →
        (∀ c ∈ (PostgresDriver.diffViewsLoop views l acc).data, isSpaceGo c = true)
  | [], _, acc, hacc => hacc
  | sv :: rest, hl, acc, hacc => by
    have hfind : views.find? (fun v => v.Name == sv.Name) = some sv :=
      find?_name_self PostgresView.Name views sv (hl sv (by simp)) hnd
    rw [PostgresDriver.diffViewsLoop, hfind]
    simp only [ne_eq, not_true_eq_false, if_false, if_neg]
    exact diffViewsLoop_self_pg views hnd rest (fun v hv => hl v (by simp [hv])) acc hacc

theorem PostgresDriver.dropViewsLoop_allfound_pg (sourceViews : List PostgresView) :
    ∀ (l : List PostgresView),
      (∀ v ∈ l, (sourceViews.find? (fun x => x.Name == v.Name)).isSome) →
      ∀ acc, PostgresDriver.dropViewsLoop sourceViews l acc = acc
  | [], _, acc => rfl
  | tv :: rest, hl, acc => by
    rw [PostgresDriver.dropViewsLoop, if_pos (hl tv (by simp))]
    exact dropViewsLoop_allfound_pg sourceViews rest (fun v hv => hl v (by simp [hv])) acc

theorem PostgresDriver.DiffViews_self_pg (views : List PostgresView)
    (hnd : (views.map PostgresView.Name).Nodup) :
    PostgresDriver.DiffViews views views = "" := by
  unfold PostgresDriver.DiffViews
  rw [PostgresDriver.dropViewsLoop_allfound_pg views views
    (fun v hv => by
      rw [find?_name_self PostgresView.Name views v hv hnd]
      rfl)]
  exact trimSpace_eq_empty
    (PostgresDriver.diffViewsLoop_self_pg views hnd views (fun v hv => hv) "" isSpaceGo_empty)

/-- Decidable equality of `Except` results, for evaluating the embedded
functions on concrete inputs. -/
instance exceptDecEq {ε α : Type} [DecidableEq ε] [DecidableEq α] :
    DecidableEq (Except ε α) := fun a b =>
  match a, b with
  | .error e1, .error e2 =>
    if h : e1 = e2 then isTrue (h ▸ rfl) else isFalse (fun hc => h (Except.error.inj hc))
  | .error _, .ok _ => isFalse (fun hc => Except.noConfusion hc)
  | .ok _, .error _ => isFalse (fun hc => Except.noConfusion hc)
  | .ok a1, .ok a2 =>
    if h : a1 = a2 then isTrue (h ▸ rfl) else isFalse (fun hc => h (Except.ok.inj hc))

/-- A schema model with two same-named columns in one table (not
producible by SQLite introspection, but a legal value of the model
type). -/
def dupColumnTable : SQLiteTable :=
  ⟨"u",
   [⟨"a", "INTEGER", false, false, ⟨"", false⟩⟩,
    ⟨"a", "TEXT", false, false, ⟨"", false⟩⟩],
   [], [], []⟩

/-- Claim C1, counterexample: diffing a model against itself is *not*
always empty for arbitrary lists — a table with duplicate column names
makes the second column compare against the first, classifying it as
modified and emitting a full rebuild. -/
theorem claim_C1_counterexample :
    SQLiteDriver.Diff [dupColumnTable] [dupColumnTable] [] [] ≠ .ok "" := by
  decide

/-- Claim C1 (amended): for every schema model in which object names
are unique — table names, view names, and the column, index and trigger
names within each table — diffing the model against itself produces the
empty string, for the SQLite driver (under every possible iteration
order of its rename maps) and for the PostgreSQL driver. -/
theorem claim_C1 :
    (∀ (ords : SQLiteTable → SQLiteTable → List (String × String))
       (tables : List SQLiteTable) (views : List SQLiteView),
       (∀ a b, (ords a b).Perm ((a.DiffColumns b).Renamed)) →
       (tables.map SQLiteTable.Name).Nodup →
       (∀ u ∈ tables, (u.Columns.map SQLiteColumn.Name).Nodup) →
       (∀ u ∈ tables, (u.Indexes.map SQLiteIndex.Name).Nodup) →
       (∀ u ∈ tables, (u.Triggers.map SQLiteTrigger.Name).Nodup) →
       (views.map SQLiteView.Name).Nodup →
       SQLiteDriver.DiffWith ords tables tables views views = .ok "") ∧
    (∀ (tables : List PostgresTable) (views : List PostgresView),
       (tables.map PostgresTable.Name).Nodup →
       (∀ u ∈ tables, (u.Columns.map PostgresColumn.Name).Nodup) →
       (∀ u ∈ tables, (u.Constraints.map PostgresConstraint.Name).Nodup) →
       (∀ u ∈ tables, (u.Indexes.map PostgresIndex.Name).Nodup) →
       (∀ u ∈ tables, (u.Triggers.map PostgresTrigger.Name).Nodup) →
       (views.map PostgresView.Name).Nodup →
       PostgresDriver.Diff tables tables views views = "") := by
  constructor
  · intro ords tables views hords hnd hcols hidx htrg hvnd
    unfold SQLiteDriver.DiffWith
    rw [SQLiteDriver.DiffTablesWith_self ords hords tables hnd hcols hidx htrg]
    simp only
    rw [SQLiteDriver.DiffViews_self views hvnd]
    decide
  · intro tables views hnd hcols hcons hidx htrg hvnd
    unfold PostgresDriver.Diff PostgresDriver.DiffTables
    rw [PostgresDriver.dropTablesLoop_allfound_pg tables tables
      (fun u hu => by
        rw [find?_name_self PostgresTable.Name tables u hu hnd]
        rfl)]
    rw [PostgresDriver.DiffViews_self_pg views hvnd]
    rw [trimSpace_eq_empty (isSpaceGo_append (isSpaceGo_append
      (PostgresDriver.diffTablesLoop_self_pg tables hnd hcols hcons hidx htrg tables
        (fun u hu => hu) "" isSpaceGo_empty) isSpaceGo_empty) isSpaceGo_newline)]
    decide

/-- An ordinary SQLite schema model used to instantiate claim C1. -/
def exC1Table : SQLiteTable :=
  ⟨"users",
   [⟨"id", "INTEGER", false, true, ⟨"", false⟩⟩,
    ⟨"name", "TEXT", true, false, ⟨"", false⟩⟩],
   [⟨"users", "idx_users_name", ["name"], true⟩],
   [⟨"users_insert", "CREATE TRIGGER users_insert AFTER INSERT ON users BEGIN SELECT 1; END"⟩],
   [⟨"other", ["a"], ["b"], "NO ACTION", "CASCADE"⟩]⟩

/-- An ordinary PostgreSQL schema model used to instantiate claim C1. -/
def exC1PgTable : PostgresTable :=
  ⟨"users",
   [⟨"id", "integer", true, ⟨"", false⟩⟩, ⟨"name", "text", false, ⟨"", false⟩⟩],
   [⟨"idx_users_name", "CREATE INDEX idx_users_name ON users (name)"⟩],
   [⟨"users_pkey", "p", "PRIMARY KEY (id)"⟩],
   [⟨"users_audit", "CREATE TRIGGER users_audit AFTER INSERT ON users EXECUTE FUNCTION f()"⟩]⟩

/-- Witness for claim C1 at a concrete schema. -/
theorem claim_C1_witness :
    SQLiteDriver.DiffWith (fun a b => (a.DiffColumns b).Renamed)
        [exC1Table] [exC1Table] [⟨"v", "CREATE VIEW v AS SELECT 1"⟩]
        [⟨"v", "CREATE VIEW v AS SELECT 1"⟩] = .ok "" ∧
    PostgresDriver.Diff [exC1PgTable] [exC1PgTable] [⟨"v", "SELECT 1"⟩] [⟨"v", "SELECT 1"⟩]
      = "" := by
  refine ⟨claim_C1.1 _ _ _ (fun a b => List.Perm.refl _) ?_ ?_ ?_ ?_ ?_,
    claim_C1.2 _ _ ?_ ?_ ?_ ?_ ?_ ?_⟩ <;> decide

/-- Source table of the two-renames scenario: columns `a2` and `b2`
carry the attributes of the target's `a` and `b`. -/
def twoRenSource : SQLiteTable :=
  ⟨"users",
   [⟨"a2", "TEXT", false, false, ⟨"", false⟩⟩,
    ⟨"b2", "INTEGER", false, false, ⟨"", false⟩⟩],
   [], [], []⟩

/-- Target table of the two-renames scenario. -/
def twoRenTarget : SQLiteTable :=
  ⟨"users",
   [⟨"a", "TEXT", false, false, ⟨"", false⟩⟩,
    ⟨"b", "INTEGER", false, false, ⟨"", false⟩⟩],
   [], [], []⟩

/-- Claim C8: the diff is *not* a deterministic function of the two
models when a table has two renamed columns.  The rename map of the
scenario holds the two entries `a -> a2` and `b -> b2`; the emission
loop `for oldName, newName := range columnsDiff.Renamed` iterates a Go
map, whose order the Go runtime randomizes, and the two possible orders
— both permutations of the map's content — produce different output
strings. -/
theorem claim_C8 :
    (twoRenSource.DiffColumns twoRenTarget).Renamed = [("a", "a2"), ("b", "b2")] ∧
    twoRenSource.DiffTableWith [("a", "a2"), ("b", "b2")] twoRenTarget ≠
      twoRenSource.DiffTableWith [("b", "b2"), ("a", "a2")] twoRenTarget := by
  decide

/-- Claim C9, part evaluated on the embedded lifecycle functions: when
closing the source connection fails, `Close` returns without closing
the target connection; and when `NewSQLiteDriver` fails to open the
target connection, it returns without closing the already-opened source
connection. -/
theorem claim_C9 :
    ((SQLiteDriver.Close ⟨false, false⟩ (some "close failed") none).1.targetClosed = false ∧
      (SQLiteDriver.Close ⟨false, false⟩ (some "close failed") none).2 = some "close failed") ∧
    ((NewSQLiteDriver none (some "open failed")).1.sourceOpened = true ∧
      (NewSQLiteDriver none (some "open failed")).1.sourceClosed = false ∧
      (NewSQLiteDriver none (some "open failed")).2 = some "open failed") := by
  decide

/-- Branch selection of `DiffTable`: a nonempty modified list or a
changed foreign-key set selects the rebuild protocol. -/
theorem SQLiteTable.DiffTableStmtsWith_rebuild (t other : SQLiteTable)
    (ord : List (GoStr × GoStr))
    (h : (t.DiffColumns other).Modified ≠ [] ∨
         (t.DiffColumns other).ForeignKeysChanged = true) :
    t.DiffTableStmtsWith ord other = .ok (t.rebuildStmts other) := by
  unfold SQLiteTable.DiffTableStmtsWith
  rcases h with h | h
  · have hl : (t.DiffColumns other).Modified.length > 0 := List.length_pos.mpr h
    rw [if_pos (by simp [hl])]
  · rw [if_pos (by simp [h])]

/-- The Go foreign-key comparison flags a change exactly when the claim
says: different lengths, or some source foreign key structurally equal
to no target foreign key. -/
theorem SQLiteTable.foreignKeysChangedCheck_of (t other : SQLiteTable)
    (h : t.ForeignKeys.length ≠ other.ForeignKeys.length ∨
         ∃ fk ∈ t.ForeignKeys, ∀ fk2 ∈ other.ForeignKeys, fk ≠ fk2) :
    t.foreignKeysChangedCheck other = true := by
  unfold SQLiteTable.foreignKeysChangedCheck
  by_cases hlen : (t.ForeignKeys.length != other.ForeignKeys.length) = true
  · rw [if_pos hlen]
  · rw [if_neg hlen]
    rcases h with h | h
    · exact absurd (by simpa using h) hlen
    · rcases h with ⟨fk, hfk, hall⟩
      apply List.any_eq_true.mpr
      refine ⟨fk, hfk, ?_⟩
      simp only [Bool.not_eq_eq_eq_not, Bool.not_true]
      rw [List.any_eq_false]
      intro fk2 h2
      intro hEq
      exact hall fk2 h2 ((SQLiteForeignKey.Equal_iff fk2 fk).mp hEq).symm

/-- Claim C5: whenever the foreign-key sets differ — different lengths,
or some source foreign key structurally equal to no target foreign key —
the table diff takes the rebuild branch and emits exactly the rebuild
protocol, regardless of whether any column is classified Modified (the
hypotheses place no constraint on the column lists). -/
theorem claim_C5 (t other : SQLiteTable) (ord : List (GoStr × GoStr))
    (h : t.ForeignKeys.length ≠ other.ForeignKeys.length ∨
         ∃ fk ∈ t.ForeignKeys, ∀ fk2 ∈ other.ForeignKeys, fk ≠ fk2) :
    (t.DiffColumns other).ForeignKeysChanged = true ∧
    t.DiffTableStmtsWith ord other = .ok (t.rebuildStmts other) := by
  have hfk : (t.DiffColumns other).ForeignKeysChanged = true := by
    rw [SQLiteTable.DiffColumns_FK]
    exact SQLiteTable.foreignKeysChangedCheck_of t other h
  exact ⟨hfk, SQLiteTable.DiffTableStmtsWith_rebuild t other ord (Or.inr hfk)⟩

/-- Source of the added-foreign-key scenario: same columns as the
target, one foreign key more. -/
def exC5Source : SQLiteTable :=
  ⟨"posts",
   [⟨"id", "INTEGER", false, true, ⟨"", false⟩⟩,
    ⟨"user_id", "INTEGER", false, false, ⟨"", false⟩⟩],
   [], [],
   [⟨"users", ["user_id"], ["id"], "NO ACTION", "CASCADE"⟩]⟩

/-- Target of the added-foreign-key scenario. -/
def exC5Target : SQLiteTable :=
  ⟨"posts",
   [⟨"id", "INTEGER", false, true, ⟨"", false⟩⟩,
    ⟨"user_id", "INTEGER", false, false, ⟨"", false⟩⟩],
   [], [], []⟩

/-- Witness for claim C5: identical columns (nothing Modified), one
added foreign key, rebuild emitted. -/
theorem claim_C5_witness :
    (exC5Source.DiffColumns exC5Target).Modified = [] ∧
    (exC5Source.DiffColumns exC5Target).ForeignKeysChanged = true ∧
    exC5Source.DiffTableStmtsWith [] exC5Target = .ok (exC5Source.rebuildStmts exC5Target) :=
  ⟨by decide,
   (claim_C5 exC5Source exC5Target [] (Or.inl (by decide))).1,
   (claim_C5 exC5Source exC5Target [] (Or.inl (by decide))).2⟩

/-- Lookup in an inverted map searches the original values. -/
theorem mapLookup_mapInvert (m : List (String × String)) (k : String) :
    mapLookup (mapInvert m) k = (m.find? (fun p => p.2 == k)).map Prod.fst := by
  unfold mapLookup mapInvert
  rw [find?_over_map]
  cases m.find? (fun p => p.2 == k) <;> simp

/-- Select expression of the rebuild INSERT, written from the
specification's four cases: the quoted name when the column exists in
the target, the quoted old name when it participated in a rename (an
entry of the rename map has it as new name), the declared default
literal, and NULL otherwise. -/
def SelectExprSpec (other : SQLiteTable) (ren : List (GoStr × GoStr)) (c : SQLiteColumn) : GoStr :=
  if (other.ColumnByName c.Name).isSome then quoteIdent c.Name
  else
    match (ren.find? (fun p => p.2 == c.Name)).map Prod.fst with
    | some oldName => quoteIdent oldName
    | none => if c.Default.Valid then c.Default.String else "NULL"

/-- The select expression computed by the code (via the inverted rename
map) coincides with the specification's four-case definition. -/
theorem selectExprFor_eq_spec (t other : SQLiteTable) (c : SQLiteColumn) :
    SQLiteTable.selectExprFor other (mapInvert (t.DiffColumns other).Renamed) c =
      SelectExprSpec other (t.DiffColumns other).Renamed c := by
  unfold SQLiteTable.selectExprFor SelectExprSpec
  rw [mapLookup_mapInvert]
  rfl

/-- Claim C2: in every emitted rebuild, the INSERT-SELECT statement
pairs the i-th source column with the i-th select expression, and each
select expression is exactly the specification's four-case function of
that column. -/
theorem claim_C2 (t other : SQLiteTable) (ord : List (GoStr × GoStr))
    (h : (t.DiffColumns other).Modified ≠ [] ∨
         (t.DiffColumns other).ForeignKeysChanged = true) :
    ∃ stmts, t.DiffTableStmtsWith ord other = .ok stmts ∧
      stmts[1]? = some ("INSERT INTO \"" ++ t.tempTable.Name ++ "\" ("
        ++ String.intercalate ", " (t.Columns.map (fun c => quoteIdent c.Name))
        ++ ") SELECT "
        ++ String.intercalate ", "
            (t.Columns.map (SelectExprSpec other (t.DiffColumns other).Renamed))
        ++ " FROM \"" ++ t.Name ++ "\";") := by
  refine ⟨t.rebuildStmts other, SQLiteTable.DiffTableStmtsWith_rebuild t other ord h, ?_⟩
  have hfn : SQLiteTable.selectExprFor other (mapInvert (t.DiffColumns other).Renamed) =
      SelectExprSpec other (t.DiffColumns other).Renamed :=
    funext (selectExprFor_eq_spec t other)
  unfold SQLiteTable.rebuildStmts
  simp only [← hfn]
  rw [getElem?_append_lit _ _ 1 (by simp)]
  rfl

/-- Claim C6: in every emitted rebuild, the INSERT statement's column
list is the source table's declared column list in declared order, the
shadow table is a copy of the source with only the name changed, and the
INSERT column list is therefore a permutation of the shadow table's
declared columns. -/
theorem claim_C6 (t other : SQLiteTable) (ord : List (GoStr × GoStr))
    (h : (t.DiffColumns other).Modified ≠ [] ∨
         (t.DiffColumns other).ForeignKeysChanged = true) :
    ∃ stmts, t.DiffTableStmtsWith ord other = .ok stmts ∧
      stmts[1]? = some ("INSERT INTO \"" ++ t.tempTable.Name ++ "\" ("
        ++ String.intercalate ", " (t.Columns.map (fun c => quoteIdent c.Name))
        ++ ") SELECT "
        ++ String.intercalate ", "
            (t.Columns.map
              (SQLiteTable.selectExprFor other (mapInvert (t.DiffColumns other).Renamed)))
        ++ " FROM \"" ++ t.Name ++ "\";") ∧
      t.tempTable.Columns = t.Columns ∧
      (t.Columns.map (fun c => quoteIdent c.Name)).Perm
        (t.tempTable.Columns.map (fun c => quoteIdent c.Name)) := by
  refine ⟨t.rebuildStmts other, SQLiteTable.DiffTableStmtsWith_rebuild t other ord h,
    ?_, rfl, List.Perm.refl _⟩
  unfold SQLiteTable.rebuildStmts
  rw [getElem?_append_lit _ _ 1 (by simp)]
  rfl

/-- Source of the rebuild-with-all-select-cases scenario: `id` keeps
its name but becomes NOT NULL (Modified, forcing the rebuild),
`full_name` and `note` are new TEXT columns (`note`, processed later,
takes over the rename from target column `name`, so `full_name` falls
to the default/NULL case), and `score` is new with a declared default. -/
def exC2Source : SQLiteTable :=
  ⟨"users",
   [⟨"id", "INTEGER", true, true, ⟨"", false⟩⟩,
    ⟨"full_name", "TEXT", false, false, ⟨"", false⟩⟩,
    ⟨"score", "REAL", false, false, ⟨"0", true⟩⟩,
    ⟨"note", "TEXT", false, false, ⟨"", false⟩⟩],
   [], [], []⟩

/-- Target of the rebuild-with-all-select-cases scenario. -/
def exC2Target : SQLiteTable :=
  ⟨"users",
   [⟨"id", "INTEGER", false, true, ⟨"", false⟩⟩,
    ⟨"name", "TEXT", false, false, ⟨"", false⟩⟩,
    ⟨"age", "INTEGER", false, false, ⟨"", false⟩⟩],
   [], [], []⟩

/-- Witness for claim C2 at a scenario exercising all four select
cases (`"id"`, NULL, the default literal `0`, and `"name"`). -/
theorem claim_C2_witness :
    ∃ stmts, exC2Source.DiffTableStmtsWith [] exC2Target = .ok stmts ∧
      stmts[1]? = some ("INSERT INTO \"" ++ exC2Source.tempTable.Name ++ "\" ("
        ++ String.intercalate ", " (exC2Source.Columns.map (fun c => quoteIdent c.Name))
        ++ ") SELECT "
        ++ String.intercalate ", "
            (exC2Source.Columns.map
              (SelectExprSpec exC2Target (exC2Source.DiffColumns exC2Target).Renamed))
        ++ " FROM \"" ++ exC2Source.Name ++ "\";") :=
  claim_C2 exC2Source exC2Target [] (Or.inl (by decide))

/-- Source of the compatible-type-change scenario for claim C6. -/
def exC6Source : SQLiteTable :=
  ⟨"users",
   [⟨"id", "INTEGER", false, true, ⟨"", false⟩⟩,
    ⟨"age", "INTEGER", false, false, ⟨"", false⟩⟩],
   [⟨"users", "idx_users_age", ["age"], false⟩], [], []⟩

/-- Target of the compatible-type-change scenario for claim C6. -/
def exC6Target : SQLiteTable :=
  ⟨"users",
   [⟨"id", "INTEGER", false, true, ⟨"", false⟩⟩,
    ⟨"age", "TEXT", false, false, ⟨"", false⟩⟩],
   [⟨"users", "idx_users_age", ["age"], false⟩], [], []⟩

/-- Witness for claim C6. -/
theorem claim_C6_witness :
    ∃ stmts, exC6Source.DiffTableStmtsWith [] exC6Target = .ok stmts ∧
      stmts[1]? = some ("INSERT INTO \"" ++ exC6Source.tempTable.Name ++ "\" ("
        ++ String.intercalate ", " (exC6Source.Columns.map (fun c => quoteIdent c.Name))
        ++ ") SELECT "
        ++ String.intercalate ", "
            (exC6Source.Columns.map
              (SQLiteTable.selectExprFor exC6Target
                (mapInvert (exC6Source.DiffColumns exC6Target).Renamed)))
        ++ " FROM \"" ++ exC6Source.Name ++ "\";") ∧
      exC6Source.tempTable.Columns = exC6Source.Columns ∧
      (exC6Source.Columns.map (fun c => quoteIdent c.Name)).Perm
        (exC6Source.tempTable.Columns.map (fun c => quoteIdent c.Name)) :=
  claim_C6 exC6Source exC6Target [] (Or.inl (by decide))

/-- Compatibility in terms of the allowlist membership. -/
theorem SQLiteColumn.IsTypeChangeCompatible_iff (c other : SQLiteColumn) :
    c.IsTypeChangeCompatible other = true ↔
      (c.Type' ∈ compatibleTypes ∧ other.Type' ∈ compatibleTypes) := by
  simp [SQLiteColumn.IsTypeChangeCompatible]

/-- Membership in the `Modified` list, for a source column, under
pairwise distinct source column names. -/
theorem SQLiteTable.mem_Modified_iff (s t : SQLiteTable)
    (hnodup : (s.Columns.map SQLiteColumn.Name).Nodup)
    (c : SQLiteColumn) (hc : c ∈ s.Columns) :
    c.Name ∈ (s.DiffColumns t).Modified ↔ s.modifiedPredB t c = true := by
  rw [SQLiteTable.DiffColumns_Modified]
  constructor
  · intro hm
    obtain ⟨c', hc', hname⟩ := List.mem_map.mp hm
    obtain ⟨hc'mem, hpred⟩ := List.mem_filter.mp hc'
    have : c' = c := eq_of_name_eq SQLiteColumn.Name s.Columns hnodup c' hc'mem c hc hname
    rw [← this]
    exact hpred
  · intro hpred
    exact List.mem_map_of_mem _ (List.mem_filter.mpr ⟨hc, hpred⟩)

/-- Membership in the `Added` list, for a source column, under pairwise
distinct source column names. -/
theorem SQLiteTable.mem_Added_iff (s t : SQLiteTable)
    (hnodup : (s.Columns.map SQLiteColumn.Name).Nodup)
    (c : SQLiteColumn) (hc : c ∈ s.Columns) :
    c.Name ∈ (s.DiffColumns t).Added ↔ s.addedPredB t c = true := by
  rw [SQLiteTable.DiffColumns_Added]
  constructor
  · intro hm
    obtain ⟨c', hc', hname⟩ := List.mem_map.mp hm
    obtain ⟨hc'mem, hpred⟩ := List.mem_filter.mp hc'
    have : c' = c := eq_of_name_eq SQLiteColumn.Name s.Columns hnodup c' hc'mem c hc hname
    rw [← this]
    exact hpred
  · intro hpred
    exact List.mem_map_of_mem _ (List.mem_filter.mpr ⟨hc, hpred⟩)

/-- A name in the `Added` list names a source column. -/
theorem SQLiteTable.added_found (t other : SQLiteTable) :
    ∀ n ∈ (t.DiffColumns other).Added, (t.ColumnByName n).isSome := by
  intro n hn
  rw [SQLiteTable.DiffColumns_Added] at hn
  obtain ⟨c', hc', hname⟩ := List.mem_map.mp hn
  obtain ⟨hmem, _⟩ := List.mem_filter.mp hc'
  unfold SQLiteTable.ColumnByName
  rw [List.find?_isSome]
  exact ⟨c', hmem, by simp [hname]⟩

theorem SQLiteTable.addColumnsLoop_ok (t : SQLiteTable) :
    ∀ (names : List GoStr) (acc : List GoStr),
      (∀ n ∈ names, (t.ColumnByName n).isSome) →
      t.addColumnsLoop names acc = .ok (acc ++ names.map (fun n =>
        match t.ColumnByName n with
        | some column => "ALTER TABLE \"" ++ t.Name ++ "\" ADD COLUMN " ++ column.String ++ ";"
        | none => ""))
  | [], acc, _ => by simp [SQLiteTable.addColumnsLoop]
  | n :: rest, acc, h => by
    have hsome := h n (by simp)
    cases hcol : t.ColumnByName n with
    | none => rw [hcol] at hsome; cases hsome
    | some column =>
      rw [SQLiteTable.addColumnsLoop, hcol]
      show t.addColumnsLoop rest
          (acc ++ ["ALTER TABLE \"" ++ t.Name ++ "\" ADD COLUMN " ++ column.String ++ ";"]) = _
      rw [addColumnsLoop_ok t rest _ (fun x hx => h x (by simp [hx]))]
      simp [hcol, List.append_assoc]

/-- Branch selection of `DiffTable`: no modified column and an
unchanged foreign-key set select the in-place branch, whose statements
are the renames (in the given iteration order), the drops, then the
adds. -/
theorem SQLiteTable.DiffTableStmtsWith_inplace (t other : SQLiteTable)
    (ord : List (GoStr × GoStr))
    (hmod : (t.DiffColumns other).Modified = [])
    (hfk : (t.DiffColumns other).ForeignKeysChanged = false) :
    t.DiffTableStmtsWith ord other = .ok (
      ord.map (fun p =>
        "ALTER TABLE \"" ++ t.Name ++ "\" RENAME COLUMN \"" ++ p.1 ++ "\" TO \"" ++ p.2 ++ "\";")
      ++ (t.DiffColumns other).Removed.map (fun n =>
        "ALTER TABLE \"" ++ t.Name ++ "\" DROP COLUMN \"" ++ n ++ "\";")
      ++ (t.DiffColumns other).Added.map (fun n =>
        match t.ColumnByName n with
        | some column => "ALTER TABLE \"" ++ t.Name ++ "\" ADD COLUMN " ++ column.String ++ ";"
        | none => "")) := by
  unfold SQLiteTable.DiffTableStmtsWith
  rw [if_neg (by simp [hmod, hfk])]
  unfold SQLiteTable.inPlaceStmts
  rw [SQLiteTable.addColumnsLoop_ok t _ [] (SQLiteTable.added_found t other)]
  simp [List.append_assoc]

/-- Positions of one element of the middle part and one element of the
last part of a three-part append. -/
theorem append3_getElem {α} (l1 l2 l3 : List α) (a b : α) (ha : a ∈ l2) (hb : b ∈ l3) :
    ∃ i j : Nat, i < j ∧ (l1 ++ l2 ++ l3)[i]? = some a ∧ (l1 ++ l2 ++ l3)[j]? = some b := by
  obtain ⟨n, hn, hna⟩ := List.getElem_of_mem ha
  obtain ⟨m, hm, hmb⟩ := List.getElem_of_mem hb
  refine ⟨l1.length + n, (l1 ++ l2).length + m, ?_, ?_, ?_⟩
  · simp only [List.length_append]
    omega
  · rw [getElem?_append_lit _ _ _ (by simp only [List.length_append]; omega)]
    rw [List.getElem?_append_right (by omega)]
    simp only [Nat.add_sub_cancel_left]
    rw [List.getElem?_eq_getElem hn, hna]
  · rw [List.getElem?_append_right (by omega : (l1 ++ l2).length ≤ (l1 ++ l2).length + m)]
    simp only [Nat.add_sub_cancel_left]
    rw [List.getElem?_eq_getElem hm, hmb]

/-- Claim C4: a column present by name in both tables with differing
declared types is classified Modified exactly when both types lie in
the allowlist {TEXT, INTEGER, REAL, BLOB}; a Modified classification
selects the rebuild protocol, and an incompatible type change degrades
to a Removed/Added pair, emitted (when nothing else forces a rebuild)
as a DROP COLUMN statement followed by a later ADD COLUMN statement. -/
theorem claim_C4 (s t : SQLiteTable) (ord : List (GoStr × GoStr))
    (hnodup : (s.Columns.map SQLiteColumn.Name).Nodup)
    (c tc : SQLiteColumn) (hc : c ∈ s.Columns)
    (htc : t.ColumnByName c.Name = some tc) (hty : c.Type' ≠ tc.Type') :
    (c.Name ∈ (s.DiffColumns t).Modified ↔
      (c.Type' ∈ compatibleTypes ∧ tc.Type' ∈ compatibleTypes)) ∧
    (c.Name ∈ (s.DiffColumns t).Modified →
      s.DiffTableStmtsWith ord t = .ok (s.rebuildStmts t)) ∧
    (¬(c.Type' ∈ compatibleTypes ∧ tc.Type' ∈ compatibleTypes) →
      c.Name ∈ (s.DiffColumns t).Removed ∧ c.Name ∈ (s.DiffColumns t).Added ∧
      ((s.DiffColumns t).Modified = [] → (s.DiffColumns t).ForeignKeysChanged = false →
        ∃ stmts, s.DiffTableStmtsWith ord t = .ok stmts ∧
          ∃ i j : Nat, i < j ∧
            stmts[i]? = some ("ALTER TABLE \"" ++ s.Name ++ "\" DROP COLUMN \""
              ++ c.Name ++ "\";") ∧
            stmts[j]? = some ("ALTER TABLE \"" ++ s.Name ++ "\" ADD COLUMN "
              ++ c.String ++ ";"))) := by
  have hne : c ≠ tc := fun he => hty (by rw [he])
  have hpredmod : s.modifiedPredB t c = (c.IsTypeChangeCompatible tc) := by
    unfold SQLiteTable.modifiedPredB
    rw [htc]
    simp [hne, hty]
  refine ⟨?_, ?_, ?_⟩
  · rw [SQLiteTable.mem_Modified_iff s t hnodup c hc, hpredmod]
    exact SQLiteColumn.IsTypeChangeCompatible_iff c tc
  · intro hm
    exact SQLiteTable.DiffTableStmtsWith_rebuild s t ord
      (Or.inl (fun hnil => by rw [hnil] at hm; cases hm))
  · intro hincomp
    have hcompat : c.IsTypeChangeCompatible tc = false := by
      cases hcp : c.IsTypeChangeCompatible tc with
      | false => rfl
      | true => exact absurd ((SQLiteColumn.IsTypeChangeCompatible_iff c tc).mp hcp) hincomp
    have hremoved : c.Name ∈ (s.DiffColumns t).Removed := by
      rw [SQLiteTable.DiffColumns_Removed]
      apply List.mem_append_left
      apply List.mem_map_of_mem
      apply List.mem_filter.mpr
      refine ⟨hc, ?_⟩
      unfold SQLiteTable.removedPred1B
      rw [htc]
      simp [hne, hty, hcompat]
    have hadded : c.Name ∈ (s.DiffColumns t).Added := by
      rw [SQLiteTable.mem_Added_iff s t hnodup c hc]
      unfold SQLiteTable.addedPredB
      rw [htc]
      simp [hne, hty, hcompat]
    refine ⟨hremoved, hadded, ?_⟩
    intro hmod hfk
    refine ⟨_, SQLiteTable.DiffTableStmtsWith_inplace s t ord hmod hfk, ?_⟩
    have hfound : s.ColumnByName c.Name = some c :=
      SQLiteTable.ColumnByName_self s c hc hnodup
    have hadd : ("ALTER TABLE \"" ++ s.Name ++ "\" ADD COLUMN " ++ c.String ++ ";") ∈
        (s.DiffColumns t).Added.map (fun n =>
          match s.ColumnByName n with
          | some column => "ALTER TABLE \"" ++ s.Name ++ "\" ADD COLUMN " ++ column.String ++ ";"
          | none => "") := by
      have := List.mem_map_of_mem (fun n =>
        match s.ColumnByName n with
        | some column => "ALTER TABLE \"" ++ s.Name ++ "\" ADD COLUMN " ++ column.String ++ ";"
        | none => "") hadded
      simpa [hfound] using this
    exact append3_getElem _ _ _ _ _
      (List.mem_map_of_mem (fun n =>
        "ALTER TABLE \"" ++ s.Name ++ "\" DROP COLUMN \"" ++ n ++ "\";") hremoved)
      hadd

/-- Shared primary-key column of the claim C4 scenarios. -/
def exC4IdCol : SQLiteColumn := ⟨"id", "INTEGER", false, true, ⟨"", false⟩⟩

/-- Column `age INTEGER` (allowlisted type). -/
def exC4ColInt : SQLiteColumn := ⟨"age", "INTEGER", false, false, ⟨"", false⟩⟩

/-- Column `age TEXT` (allowlisted type). -/
def exC4ColText : SQLiteColumn := ⟨"age", "TEXT", false, false, ⟨"", false⟩⟩

/-- Column `age VARCHAR` (not in the allowlist). -/
def exC4ColVarchar : SQLiteColumn := ⟨"age", "VARCHAR", false, false, ⟨"", false⟩⟩

/-- Source and target of the compatible type change of claim C4. -/
def exC4aS : SQLiteTable := ⟨"users", [exC4IdCol, exC4ColInt], [], [], []⟩

/-- Target of the compatible type change of claim C4. -/
def exC4aT : SQLiteTable := ⟨"users", [exC4IdCol, exC4ColText], [], [], []⟩

/-- Source of the incompatible type change of claim C4. -/
def exC4bS : SQLiteTable := ⟨"users", [exC4IdCol, exC4ColVarchar], [], [], []⟩

/-- Target of the incompatible type change of claim C4. -/
def exC4bT : SQLiteTable := ⟨"users", [exC4IdCol, exC4ColText], [], [], []⟩

/-- Witness for claim C4 at a compatible (INTEGER to TEXT) and an
incompatible (VARCHAR to TEXT) type change. -/
theorem claim_C4_witness :
    exC4ColInt.Name ∈ (exC4aS.DiffColumns exC4aT).Modified ∧
    (exC4ColVarchar.Name ∈ (exC4bS.DiffColumns exC4bT).Removed ∧
      exC4ColVarchar.Name ∈ (exC4bS.DiffColumns exC4bT).Added) := by
  constructor
  · exact (claim_C4 exC4aS exC4aT [] (by decide) exC4ColInt exC4ColText (by decide)
      (by decide) (by decide)).1.mpr (by decide)
  · have h := (claim_C4 exC4bS exC4bT [] (by decide) exC4ColVarchar exC4ColText (by decide)
      (by decide) (by decide)).2.2 (by decide)
    exact ⟨h.1, h.2.1⟩

/-- Source of the competing-renames scenario: `x` and `y` are both
INTEGER columns absent from the target. -/
def exC3Source : SQLiteTable :=
  ⟨"u",
   [⟨"x", "INTEGER", false, false, ⟨"", false⟩⟩,
    ⟨"y", "INTEGER", false, false, ⟨"", false⟩⟩],
   [], [], []⟩

/-- Target of the competing-renames scenario: a single INTEGER column
`z`, attribute-equal to both `x` and `y`. -/
def exC3Target : SQLiteTable :=
  ⟨"u", [⟨"z", "INTEGER", false, false, ⟨"", false⟩⟩], [], [], []⟩

/-- Claim C3, counterexample: the rename search does not consume
matched target columns.  Processing `x` records the rename `z -> x`;
processing `y` finds the already-matched `z` again and overwrites the
entry, leaving `Renamed = [(z, y)]` and `Added = []`.  Under the claim,
`z` would be consumed by `x`, so `y` would match no unconsumed target
column and be classified Added (`Renamed = [(z, x)]`, `Added = [y]`). -/
theorem claim_C3_counterexample :
    (exC3Source.DiffColumns exC3Target).Renamed = [("z", "y")] ∧
    (exC3Source.DiffColumns exC3Target).Added = [] := by
  decide

/-- Claim C3 (amended): a source column whose name is absent from the
target is matched against the first target column (in declared order)
whose name is absent from the source and whose non-name attributes are
equal, with no consumption of already-matched target columns: the
rename-map entry of a target column holds the name of the *last* source
column whose first-fit search chose it, a source column whose search
found some target column is never classified Added (even when its
rename record is later overwritten and lost), and a source column whose
search found nothing is classified Added. -/
theorem claim_C3 (s t : SQLiteTable)
    (hnodup : (s.Columns.map SQLiteColumn.Name).Nodup)
    (c : SQLiteColumn) (hc : c ∈ s.Columns) (habs : t.ColumnByName c.Name = none) :
    (t.Columns.find? (fun x => (s.ColumnByName x.Name).isNone && x.HasEqualAttributes c)
        = none → c.Name ∈ (s.DiffColumns t).Added) ∧
    (∀ tc, t.Columns.find? (fun x => (s.ColumnByName x.Name).isNone && x.HasEqualAttributes c)
        = some tc →
      c.Name ∉ (s.DiffColumns t).Added ∧
      mapLookup (s.DiffColumns t).Renamed tc.Name =
        ((s.Columns.filter (s.renMatchB t tc.Name)).getLast?).map SQLiteColumn.Name) := by
  constructor
  · intro hnone
    rw [SQLiteTable.mem_Added_iff s t hnodup c hc]
    unfold SQLiteTable.addedPredB
    rw [habs]
    show (s.renameTargetFor t c).isNone = true
    unfold SQLiteTable.renameTargetFor
    rw [hnone]
    rfl
  · intro tc hsome
    constructor
    · rw [SQLiteTable.mem_Added_iff s t hnodup c hc]
      unfold SQLiteTable.addedPredB
      rw [habs]
      show ¬(s.renameTargetFor t c).isNone = true
      unfold SQLiteTable.renameTargetFor
      rw [hsome]
      simp
    · exact SQLiteTable.DiffColumns_Renamed_lookup s t tc.Name

/-- Column `y` of the claim C3 witness schema. -/
def exC3ColY : SQLiteColumn := ⟨"y", "INTEGER", false, false, ⟨"", false⟩⟩

/-- Column `w` of the claim C3 witness schema: matches no target. -/
def exC3ColW : SQLiteColumn := ⟨"w", "REAL", false, false, ⟨"", false⟩⟩

/-- Column `z` of the claim C3 witness target. -/
def exC3ColZ : SQLiteColumn := ⟨"z", "INTEGER", false, false, ⟨"", false⟩⟩

/-- Source of the claim C3 witness: `x` and `y` compete for `z`, and
`w` matches nothing. -/
def exC3wSource : SQLiteTable :=
  ⟨"u",
   [⟨"x", "INTEGER", false, false, ⟨"", false⟩⟩, exC3ColY, exC3ColW],
   [], [], []⟩

/-- Witness for claim C3: `w` is classified Added; the entry of target
column `z` holds the last matching source column's name. -/
theorem claim_C3_witness :
    exC3ColW.Name ∈ (exC3wSource.DiffColumns exC3Target).Added ∧
    (exC3ColY.Name ∉ (exC3wSource.DiffColumns exC3Target).Added ∧
      mapLookup (exC3wSource.DiffColumns exC3Target).Renamed exC3ColZ.Name =
        ((exC3wSource.Columns.filter (exC3wSource.renMatchB exC3Target exC3ColZ.Name)).getLast?).map
          SQLiteColumn.Name) :=
  ⟨(claim_C3 exC3wSource exC3Target (by decide) exC3ColW (by decide) (by decide)).1 (by decide),
   (claim_C3 exC3wSource exC3Target (by decide) exC3ColY (by decide) (by decide)).2
     exC3ColZ (by decide)⟩

/-- Two appends with nonempty literal prefixes whose first characters
differ are unequal. -/
theorem lit_append_ne (a b x y : String)
    (h : a.data[0]? ≠ b.data[0]?) (ha : a.data ≠ []) (hb : b.data ≠ []) :
    a ++ x ≠ b ++ y := by
  intro he
  have hd := congrArg String.data he
  simp only [String.data_append] at hd
  have h0 : (a.data ++ x.data)[0]? = (b.data ++ y.data)[0]? := by rw [hd]
  rw [getElem?_append_lit _ _ 0 (List.length_pos.mpr ha),
    getElem?_append_lit _ _ 0 (List.length_pos.mpr hb)] at h0
  exact h h0

/-- First character of an append with a nonempty left part. -/
theorem data_getElem0_lit (a x : String) (h : a.data ≠ []) :
    (a ++ x).data[0]? = a.data[0]? := by
  rw [String.data_append]
  exact getElem?_append_lit _ _ 0 (List.length_pos.mpr h)

/-- A name that does not start with an underscore, followed by a quoted
remainder, does not start with an underscore. -/
theorem name_append_getElem0_ne_underscore (T rest : String)
    (hT : T.data.head? ≠ some '_') (hrest : rest.data[0]? = some '"') :
    (T ++ rest).data[0]? ≠ some '_' := by
  rw [String.data_append]
  cases hd : T.data with
  | nil =>
    rw [List.nil_append, hrest]
    intro hcon
    cases hcon
  | cons c cs =>
    rw [hd] at hT
    simp only [List.head?_cons] at hT
    simp only [List.cons_append, List.getElem?_cons_zero]
    intro hcon
    exact hT hcon

/-- The property that a statement is none of the three in-place column
alterations of table `T`: not an ADD COLUMN, not a DROP COLUMN, not a
RENAME COLUMN statement. -/
def NotInPlaceForm (T stmt : String) : Prop :=
  (∀ cs, stmt ≠ "ALTER TABLE \"" ++ T ++ "\" ADD COLUMN " ++ cs ++ ";") ∧
  (∀ n, stmt ≠ "ALTER TABLE \"" ++ T ++ "\" DROP COLUMN \"" ++ n ++ "\";") ∧
  (∀ o n, stmt ≠ "ALTER TABLE \"" ++ T ++ "\" RENAME COLUMN \"" ++ o
    ++ "\" TO \"" ++ n ++ "\";")

/-- A statement that does not start with the letter A is none of the
in-place forms. -/
theorem NotInPlaceForm_of_head (T a x : String) (ha : a.data ≠ [])
    (h : a.data[0]? ≠ some 'A') : NotInPlaceForm T (a ++ x) := by
  have hA : ("ALTER TABLE \"" : String).data[0]? = some 'A' := by decide
  refine ⟨fun cs => ?_, fun n => ?_, fun o n => ?_⟩ <;>
  · simp only [strAssoc]
    exact lit_append_ne _ _ _ _ (by rw [hA]; exact h) ha (by decide)

/-- An ALTER TABLE statement naming the underscore-prefixed shadow
table differs from any in-place statement naming a table that does not
start with an underscore. -/
theorem underscore_append_ne (T u v : String) (hT : strHasPre T "_" = false)
    (hv : v.data[0]? = some '"') :
    "ALTER TABLE \"" ++ ("_" ++ u) ≠ "ALTER TABLE \"" ++ (T ++ v) := by
  refine str_cancel1_ne _ 0 ?_
  rw [data_getElem0_lit _ _ (by decide)]
  have hu : ("_" : String).data[0]? = some '_' := by decide
  rw [hu]
  intro he
  exact name_append_getElem0_ne_underscore T v (head_ne_underscore_of_not_pre hT) hv he.symm

/-- The shadow-rename statement of the rebuild protocol is none of the
in-place forms, when the table name does not start with an underscore. -/
theorem NotInPlaceForm_renameTable (T rest : String) (hT : strHasPre T "_" = false) :
    NotInPlaceForm T ("ALTER TABLE \"" ++ ("_" ++ rest)) := by
  refine ⟨fun cs => ?_, fun n => ?_, fun o n => ?_⟩ <;>
  · simp only [strAssoc]
    exact underscore_append_ne T _ _ hT (by rw [data_getElem0_lit _ _ (by decide)]; decide)

/-- Claim C10: when the rebuild protocol is triggered, the emitted
statements are exactly the rebuild statements, and none of them is an
ALTER TABLE ADD COLUMN, DROP COLUMN or RENAME COLUMN statement for the
table — the Added, Removed and Renamed classifications are realised
only through the shadow table's column list and the INSERT mapping.
The table-name hypothesis rules out names that collide with the shadow
naming scheme. -/
theorem claim_C10 (t other : SQLiteTable) (ord : List (GoStr × GoStr))
    (hreb : (t.DiffColumns other).Modified ≠ [] ∨
      (t.DiffColumns other).ForeignKeysChanged = true)
    (hname : strHasPre t.Name "_" = false) :
    t.DiffTableStmtsWith ord other = .ok (t.rebuildStmts other) ∧
    ∀ stmt ∈ t.rebuildStmts other, NotInPlaceForm t.Name stmt := by
  refine ⟨SQLiteTable.DiffTableStmtsWith_rebuild t other ord hreb, ?_⟩
  intro stmt hmem
  unfold SQLiteTable.rebuildStmts at hmem
  simp only [List.mem_append, List.mem_cons, List.not_mem_nil, or_false,
    List.mem_map] at hmem
  rcases hmem with (rfl | rfl | rfl | rfl) | ⟨i, hi, rfl⟩
  · show NotInPlaceForm t.Name (t.tempTable.StringCreateTable)
    unfold SQLiteTable.StringCreateTable
    simp only [strAssoc]
    exact NotInPlaceForm_of_head _ _ _ (by decide) (by decide)
  · show NotInPlaceForm t.Name ("INSERT INTO \"" ++ _ ++ _ ++ _ ++ _ ++ _ ++ _ ++ _)
    simp only [strAssoc]
    exact NotInPlaceForm_of_head _ _ _ (by decide) (by decide)
  · show NotInPlaceForm t.Name ("DROP TABLE \"" ++ _ ++ _)
    simp only [strAssoc]
    exact NotInPlaceForm_of_head _ _ _ (by decide) (by decide)
  · show NotInPlaceForm t.Name ("ALTER TABLE \"" ++ t.tempTable.Name ++ _ ++ _ ++ _)
    simp only [SQLiteTable.tempTable, strAssoc]
    exact NotInPlaceForm_renameTable t.Name _ hname
  · show NotInPlaceForm t.Name i.String
    unfold SQLiteIndex.String
    simp only [strAssoc]
    exact NotInPlaceForm_of_head _ _ _ (by decide) (by decide)

/-- Source of the claim C10 witness: a modified column (forcing a
rebuild) together with a renamed and an added column. -/
def exC10Source : SQLiteTable :=
  ⟨"accounts",
   [⟨"id", "INTEGER", true, true, ⟨"", false⟩⟩,
    ⟨"login", "TEXT", false, false, ⟨"", false⟩⟩,
    ⟨"bio", "TEXT", false, false, ⟨"", false⟩⟩],
   [], [], []⟩

/-- Target of the claim C10 witness: `id` nullable, `login` under its
old name `name`, an extra column `age` to be removed. -/
def exC10Target : SQLiteTable :=
  ⟨"accounts",
   [⟨"id", "INTEGER", false, true, ⟨"", false⟩⟩,
    ⟨"name", "TEXT", false, false, ⟨"", false⟩⟩,
    ⟨"age", "INTEGER", false, false, ⟨"", false⟩⟩],
   [], [], []⟩

/-- Witness for claim C10. -/
theorem claim_C10_witness :
    exC10Source.DiffTableStmtsWith [] exC10Target = .ok (exC10Source.rebuildStmts exC10Target) ∧
    ∀ stmt ∈ exC10Source.rebuildStmts exC10Target, NotInPlaceForm exC10Source.Name stmt :=
  claim_C10 exC10Source exC10Target [] (Or.inl (by decide)) (by decide)

/-- Membership of an if-guarded singleton. -/
theorem mem_ite_singleton {α} {c : Prop} [Decidable c] {a x : α}
    (h : a ∈ (if c then [x] else [])) : a = x := by
  by_cases hc : c
  · rw [if_pos hc] at h
    simpa using h
  · rw [if_neg hc] at h
    cases h

/-- A prefix test survives appending on the right. -/
theorem strHasPre_append (d x p : String) (h : strHasPre d p = true) :
    strHasPre (d ++ x) p = true := by
  unfold strHasPre at h ⊢
  rw [ List.isPrefixOf_iff_prefix] at h ⊢
  rw [String.data_append]
  exact h.trans (List.prefix_append d.data x.data)

/-- A string and its prefix share their first character. -/
theorem head_of_pre (s p : String) (h : strHasPre s p = true) (hne : p.data ≠ []) :
    s.data[0]? = p.data[0]? := by
  unfold strHasPre at h
  rw [ List.isPrefixOf_iff_prefix] at h
  obtain ⟨tl, htl⟩ := h
  rw [← htl]
  exact getElem?_append_lit _ _ 0 (List.length_pos.mpr hne)

/-- A string whose first character differs from a pattern's first
character does not have the pattern as prefix. -/
theorem not_pre_of_head_ne (s p : String) (hne : p.data ≠ [])
    (h : s.data[0]? ≠ p.data[0]?) : strHasPre s p = false := by
  cases hp : strHasPre s p with
  | false => rfl
  | true => exact absurd (head_of_pre s p hp hne) h

/-- Two incomparable patterns cannot both prefix the same string. -/
theorem not_pre_of_pre (s p q : String) (hp : strHasPre s p = true)
    (h1 : p.data.isPrefixOf q.data = false) (h2 : q.data.isPrefixOf p.data = false) :
    strHasPre s q = false := by
  cases hq : strHasPre s q with
  | false => rfl
  | true =>
    unfold strHasPre at hp hq
    rw [ List.isPrefixOf_iff_prefix] at hp hq
    rcases List.prefix_or_prefix_of_prefix hp hq with hc | hc
    · rw [← List.isPrefixOf_iff_prefix] at hc
      rw [hc] at h1
      cases h1
    · rw [← List.isPrefixOf_iff_prefix] at hc
      rw [hc] at h2
      cases h2

/-- Character at a position inside the left part of a string append. -/
theorem data_getElem_lit (a x : String) (n : Nat) (h : n < a.data.length) :
    (a ++ x).data[n]? = a.data[n]? := by
  rw [String.data_append]
  exact getElem?_append_lit _ _ n h

/-- The property that a statement is not a RENAME COLUMN statement for
table `T` and does not start a CREATE TABLE statement (no rebuild). -/
def NotRenameNorRebuild (T stmt : String) : Prop :=
  (∀ o n, stmt ≠ "ALTER TABLE \"" ++ T ++ "\" RENAME COLUMN \"" ++ o
    ++ "\" TO \"" ++ n ++ "\";") ∧
  strHasPre stmt "CREATE TABLE " = false

/-- An in-place ALTER TABLE statement whose clause after the quoted
table name does not continue with the letter R satisfies the property. -/
theorem NRR_alter_form (T r : String) (h2 : r.data[2]? ≠ some 'R') :
    NotRenameNorRebuild T ("ALTER TABLE \"" ++ (T ++ r)) := by
  constructor
  · intro o n
    simp only [strAssoc]
    refine str_cancel2_ne _ _ 2 ?_
    rw [data_getElem_lit _ _ 2 (by decide)]
    intro he
    exact h2 (by rw [he]; decide)
  · apply not_pre_of_head_ne _ _ (by decide)
    rw [data_getElem0_lit _ _ (by decide)]
    decide

/-- A statement starting with a character other than A and C satisfies
the property. -/
theorem NRR_of_head (T a x : String) (ha : a.data ≠ [])
    (hA : a.data[0]? ≠ some 'A') (hC : a.data[0]? ≠ some 'C') :
    NotRenameNorRebuild T (a ++ x) := by
  constructor
  · intro o n
    simp only [strAssoc]
    refine lit_append_ne _ _ _ _ ?_ ha (by decide)
    rw [show ("ALTER TABLE \"" : String).data[0]? = some 'A' from by decide]
    exact hA
  · apply not_pre_of_head_ne _ _ (by decide)
    rw [data_getElem0_lit _ _ ha]
    rw [show ("CREATE TABLE " : String).data[0]? = some 'C' from by decide]
    exact hC

/-- A statement carrying a catalog CREATE definition (with a prefix
incomparable to "CREATE TABLE ") satisfies the property. -/
theorem NRR_of_createpre (T d x p : String) (hp : strHasPre d p = true)
    (hpne : p.data ≠ []) (hhead : p.data[0]? = some 'C')
    (h1 : p.data.isPrefixOf ("CREATE TABLE " : String).data = false)
    (h2 : ("CREATE TABLE " : String).data.isPrefixOf p.data = false) :
    NotRenameNorRebuild T (d ++ x) := by
  have hdne : d.data ≠ [] := by
    intro hnil
    have := head_of_pre d p hp hpne
    rw [hnil, hhead] at this
    cases this
  have hd0 : d.data[0]? = some 'C' := by
    rw [head_of_pre d p hp hpne, hhead]
  constructor
  · intro o n
    simp only [strAssoc]
    refine lit_append_ne _ _ _ _ ?_ hdne (by decide)
    rw [hd0, show ("ALTER TABLE \"" : String).data[0]? = some 'A' from by decide]
    decide
  · exact not_pre_of_pre _ p _ (strHasPre_append d x p hp) h1 h2

/-- The third character of an append with a long enough literal left
part is not R when the literal's is not. -/
theorem getElem2_ne_R_of_lit (a x : String) (h : 2 < a.data.length)
    (ha : a.data[2]? ≠ some 'R') : (a ++ x).data[2]? ≠ some 'R' := by
  rw [data_getElem_lit _ _ 2 h]
  exact ha

/-- Every statement of the added-or-modified-columns section is an
ALTER TABLE statement whose clause does not continue with R. -/
theorem PostgresTable.colAddMod_shape (t other : PostgresTable) (stmt : GoStr)
    (h : stmt ∈ t.diffColumnsAddModStmts other) :
    ∃ r : GoStr, stmt = "ALTER TABLE \"" ++ (t.Name ++ r) ∧ r.data[2]? ≠ some 'R' := by
  unfold PostgresTable.diffColumnsAddModStmts at h
  rw [List.mem_flatMap] at h
  obtain ⟨c, hc, hmem⟩ := h
  cases hf : other.ColumnByName c.Name with
  | none =>
    simp only [hf] at hmem
    have hs := List.mem_singleton.mp hmem
    subst hs
    exact ⟨"\" ADD COLUMN " ++ (c.String ++ ";"), by simp only [strAssoc],
      getElem2_ne_R_of_lit _ _ (by decide) (by decide)⟩
  | some tc =>
    simp only [hf] at hmem
    by_cases heq : (!c.HasEqualAttributes tc) = true
    · rw [if_pos heq] at hmem
      rcases List.mem_append.mp hmem with hmem' | hmem3
      · rcases List.mem_append.mp hmem' with hmem1 | hmem2
        · have hs := mem_ite_singleton hmem1
          subst hs
          exact ⟨"\" ALTER COLUMN \"" ++ (c.Name ++ ("\" TYPE " ++ (c.Type' ++ ";"))),
            by simp only [strAssoc], getElem2_ne_R_of_lit _ _ (by decide) (by decide)⟩
        · have hs := mem_ite_singleton hmem2
          subst hs
          cases hnn : c.NotNull with
          | true =>
            exact ⟨"\" ALTER COLUMN \"" ++ (c.Name ++ "\" SET NOT NULL;"),
              by simp [strAssoc], getElem2_ne_R_of_lit _ _ (by decide) (by decide)⟩
          | false =>
            exact ⟨"\" ALTER COLUMN \"" ++ (c.Name ++ "\" DROP NOT NULL;"),
              by simp [strAssoc], getElem2_ne_R_of_lit _ _ (by decide) (by decide)⟩
      · have hs := mem_ite_singleton hmem3
        subst hs
        cases hdv : c.Default.Valid with
        | true =>
          exact ⟨"\" ALTER COLUMN \"" ++ (c.Name ++ ("\" SET DEFAULT "
              ++ (c.Default.String ++ ";"))),
            by simp [hdv, strAssoc], getElem2_ne_R_of_lit _ _ (by decide) (by decide)⟩
        | false =>
          exact ⟨"\" ALTER COLUMN \"" ++ (c.Name ++ "\" DROP DEFAULT;"),
            by simp [hdv, strAssoc], getElem2_ne_R_of_lit _ _ (by decide) (by decide)⟩
    · rw [if_neg heq] at hmem
      cases hmem

/-- Every statement of the removed-columns section is an ALTER TABLE
DROP COLUMN statement. -/
theorem PostgresTable.colRemoved_shape (t other : PostgresTable) (stmt : GoStr)
    (h : stmt ∈ t.diffColumnsRemovedStmts other) :
    ∃ r : GoStr, stmt = "ALTER TABLE \"" ++ (t.Name ++ r) ∧ r.data[2]? ≠ some 'R' := by
  unfold PostgresTable.diffColumnsRemovedStmts at h
  rw [List.mem_flatMap] at h
  obtain ⟨tc, htc, hmem⟩ := h
  have hs := mem_ite_singleton hmem
  subst hs
  exact ⟨"\" DROP COLUMN \"" ++ (tc.Name ++ "\";"), by simp only [strAssoc],
    getElem2_ne_R_of_lit _ _ (by decide) (by decide)⟩

/-- Every statement of the constraints section is an ALTER TABLE ADD or
DROP CONSTRAINT statement. -/
theorem PostgresTable.constraints_shape (t other : PostgresTable) (stmt : GoStr)
    (h : stmt ∈ t.diffConstraintsStmts other) :
    ∃ r : GoStr, stmt = "ALTER TABLE \"" ++ (t.Name ++ r) ∧ r.data[2]? ≠ some 'R' := by
  unfold PostgresTable.diffConstraintsStmts at h
  rcases List.mem_append.mp h with h1 | h2
  · rw [List.mem_flatMap] at h1
    obtain ⟨c, hc, hmem⟩ := h1
    cases hf : other.ConstraintByName c.Name with
    | none =>
      simp only [hf] at hmem
      have hs := List.mem_singleton.mp hmem
      subst hs
      exact ⟨"\" ADD " ++ (c.String ++ ";"), by simp only [strAssoc],
        getElem2_ne_R_of_lit _ _ (by decide) (by decide)⟩
    | some tc =>
      simp only [hf] at hmem
      by_cases hdef : c.Def ≠ tc.Def
      · rw [if_pos hdef] at hmem
        rcases List.mem_cons.mp hmem with hs | hmem'
        · subst hs
          exact ⟨"\" DROP CONSTRAINT \"" ++ (tc.Name ++ "\";"), by simp only [strAssoc],
            getElem2_ne_R_of_lit _ _ (by decide) (by decide)⟩
        · have hs := List.mem_singleton.mp hmem'
          subst hs
          exact ⟨"\" ADD " ++ (c.String ++ ";"), by simp only [strAssoc],
            getElem2_ne_R_of_lit _ _ (by decide) (by decide)⟩
      · rw [if_neg hdef] at hmem
        cases hmem
  · rw [List.mem_flatMap] at h2
    obtain ⟨tc, htc, hmem⟩ := h2
    have hs := mem_ite_singleton hmem
    subst hs
    exact ⟨"\" DROP CONSTRAINT \"" ++ (tc.Name ++ "\";"), by simp only [strAssoc],
      getElem2_ne_R_of_lit _ _ (by decide) (by decide)⟩

/-- Every statement of the indexes section is a source index's
definition or a DROP INDEX statement. -/
theorem PostgresTable.indexes_shape (t other : PostgresTable) (stmt : GoStr)
    (h : stmt ∈ PostgresTable.diffIndexesStmts t other) :
    (∃ i, i ∈ t.Indexes ∧ stmt = i.Def ++ ";") ∨
    (∃ r : GoStr, stmt = "DROP INDEX \"" ++ r) := by
  unfold PostgresTable.diffIndexesStmts at h
  rcases List.mem_append.mp h with h1 | h2
  · rw [List.mem_flatMap] at h1
    obtain ⟨i, hi, hmem⟩ := h1
    cases hf : other.IndexByName i.Name with
    | none =>
      simp only [hf] at hmem
      have hs := List.mem_singleton.mp hmem
      subst hs
      exact Or.inl ⟨i, hi, rfl⟩
    | some ti =>
      simp only [hf] at hmem
      by_cases hdef : i.Def ≠ ti.Def
      · rw [if_pos hdef] at hmem
        rcases List.mem_cons.mp hmem with hs | hmem'
        · subst hs
          exact Or.inr ⟨ti.Name ++ "\";", by simp only [strAssoc]⟩
        · have hs := List.mem_singleton.mp hmem'
          subst hs
          exact Or.inl ⟨i, hi, rfl⟩
      · rw [if_neg hdef] at hmem
        cases hmem
  · rw [List.mem_flatMap] at h2
    obtain ⟨ti, hti, hmem⟩ := h2
    have hs := mem_ite_singleton hmem
    subst hs
    exact Or.inr ⟨ti.Name ++ "\";", by simp only [strAssoc]⟩

/-- Every statement of the triggers section is a source trigger's
definition or a DROP TRIGGER statement. -/
theorem PostgresTable.triggers_shape (t other : PostgresTable) (stmt : GoStr)
    (h : stmt ∈ PostgresTable.diffTriggersStmts t other) :
    (∃ g, g ∈ t.Triggers ∧ stmt = g.Def ++ ";") ∨
    (∃ r : GoStr, stmt = "DROP TRIGGER \"" ++ r) := by
  unfold PostgresTable.diffTriggersStmts at h
  rcases List.mem_append.mp h with h1 | h2
  · rw [List.mem_flatMap] at h1
    obtain ⟨g, hg, hmem⟩ := h1
    cases hf : other.TriggerByName g.Name with
    | none =>
      simp only [hf] at hmem
      have hs := List.mem_singleton.mp hmem
      subst hs
      exact Or.inl ⟨g, hg, rfl⟩
    | some tg =>
      simp only [hf] at hmem
      by_cases hdef : g.Def ≠ tg.Def
      · rw [if_pos hdef] at hmem
        rcases List.mem_cons.mp hmem with hs | hmem'
        · subst hs
          exact Or.inr ⟨tg.Name ++ ("\" ON \"" ++ (t.Name ++ "\";")), by simp only [strAssoc]⟩
        · have hs := List.mem_singleton.mp hmem'
          subst hs
          exact Or.inl ⟨g, hg, rfl⟩
      · rw [if_neg hdef] at hmem
        cases hmem
  · rw [List.mem_flatMap] at h2
    obtain ⟨tg, htg, hmem⟩ := h2
    have hs := mem_ite_singleton hmem
    subst hs
    exact Or.inr ⟨tg.Name ++ ("\" ON \"" ++ (t.Name ++ "\";")), by simp only [strAssoc]⟩

/-- A type difference between two Postgres columns makes their
attribute comparison fail. -/
theorem PostgresColumn.hasEqual_false_of_type_ne (c tc : PostgresColumn)
    (hty : c.Type' ≠ tc.Type') : c.HasEqualAttributes tc = false := by
  unfold PostgresColumn.HasEqualAttributes
  rw [decide_eq_false_iff_not]
  intro h
  have h2 := congrArg PostgresColumn.Type' h
  exact hty h2

/-- Claim C7: for every pair of PostgreSQL tables diffed by
`PostgresTable.DiffTable` (whose index and trigger catalog definitions
start, as PostgreSQL emits them, with CREATE [UNIQUE] INDEX or CREATE
[CONSTRAINT] TRIGGER), every column difference is emitted as an
in-place alteration: a source column absent from the target yields
an ALTER TABLE ADD COLUMN statement, a target column absent from the
source yields an ALTER TABLE DROP COLUMN statement, a type difference
yields an ALTER COLUMN TYPE statement, and no emitted statement is a
RENAME COLUMN statement for the table or the start of a CREATE TABLE
rebuild. -/
theorem claim_C7 (t other : PostgresTable)
    (hidx : ∀ i ∈ t.Indexes, strHasPre i.Def "CREATE INDEX " = true ∨
      strHasPre i.Def "CREATE UNIQUE " = true)
    (htrg : ∀ g ∈ t.Triggers, strHasPre g.Def "CREATE TRIGGER " = true ∨
      strHasPre g.Def "CREATE CONSTRAINT " = true) :
    (∀ c ∈ t.Columns, other.ColumnByName c.Name = none →
      ("ALTER TABLE \"" ++ t.Name ++ "\" ADD COLUMN " ++ c.String ++ ";")
        ∈ t.DiffTableStmts other) ∧
    (∀ tc ∈ other.Columns, t.ColumnByName tc.Name = none →
      ("ALTER TABLE \"" ++ t.Name ++ "\" DROP COLUMN \"" ++ tc.Name ++ "\";")
        ∈ t.DiffTableStmts other) ∧
    (∀ c ∈ t.Columns, ∀ tc, other.ColumnByName c.Name = some tc →
      c.Type' ≠ tc.Type' →
      ("ALTER TABLE \"" ++ t.Name ++ "\" ALTER COLUMN \"" ++ c.Name ++ "\" TYPE "
        ++ c.Type' ++ ";") ∈ t.DiffTableStmts other) ∧
    (∀ stmt ∈ t.DiffTableStmts other, NotRenameNorRebuild t.Name stmt) := by
  refine ⟨?_, ?_, ?_, ?_⟩
  · intro c hc hnone
    unfold PostgresTable.DiffTableStmts
    apply List.mem_append_left
    apply List.mem_append_left
    apply List.mem_append_left
    apply List.mem_append_left
    unfold PostgresTable.diffColumnsAddModStmts
    rw [List.mem_flatMap]
    refine ⟨c, hc, ?_⟩
    simp only [hnone]
    exact List.mem_singleton.mpr rfl
  · intro tc htc hnone
    unfold PostgresTable.DiffTableStmts
    apply List.mem_append_left
    apply List.mem_append_left
    apply List.mem_append_left
    apply List.mem_append_right
    unfold PostgresTable.diffColumnsRemovedStmts
    rw [List.mem_flatMap]
    refine ⟨tc, htc, ?_⟩
    rw [hnone]
    exact List.mem_singleton.mpr rfl
  · intro c hc tc hf hty
    unfold PostgresTable.DiffTableStmts
    apply List.mem_append_left
    apply List.mem_append_left
    apply List.mem_append_left
    apply List.mem_append_left
    unfold PostgresTable.diffColumnsAddModStmts
    rw [List.mem_flatMap]
    refine ⟨c, hc, ?_⟩
    simp only [hf]
    rw [if_pos (by rw [PostgresColumn.hasEqual_false_of_type_ne c tc hty]; rfl)]
    apply List.mem_append_left
    apply List.mem_append_left
    rw [if_pos (by simpa [bne_iff_ne] using hty)]
    exact List.mem_singleton.mpr rfl
  · intro stmt hstmt
    unfold PostgresTable.DiffTableStmts at hstmt
    rcases List.mem_append.mp hstmt with h4 | hTrg
    · rcases List.mem_append.mp h4 with h3 | hIdx
      · rcases List.mem_append.mp h3 with h2 | hCon
        · rcases List.mem_append.mp h2 with hAM | hRem
          · obtain ⟨r, hr, hr2⟩ := PostgresTable.colAddMod_shape t other stmt hAM
            rw [hr]
            exact NRR_alter_form t.Name r hr2
          · obtain ⟨r, hr, hr2⟩ := PostgresTable.colRemoved_shape t other stmt hRem
            rw [hr]
            exact NRR_alter_form t.Name r hr2
        · obtain ⟨r, hr, hr2⟩ := PostgresTable.constraints_shape t other stmt hCon
          rw [hr]
          exact NRR_alter_form t.Name r hr2
      · rcases PostgresTable.indexes_shape t other stmt hIdx with ⟨i, hi, hr⟩ | ⟨r, hr⟩
        · rw [hr]
          rcases hidx i hi with hp | hp
          · exact NRR_of_createpre t.Name i.Def ";" "CREATE INDEX " hp
              (by decide) (by decide) (by decide) (by decide)
          · exact NRR_of_createpre t.Name i.Def ";" "CREATE UNIQUE " hp
              (by decide) (by decide) (by decide) (by decide)
        · rw [hr]
          exact NRR_of_head t.Name "DROP INDEX \"" r (by decide) (by decide) (by decide)
    · rcases PostgresTable.triggers_shape t other stmt hTrg with ⟨g, hg, hr⟩ | ⟨r, hr⟩
      · rw [hr]
        rcases htrg g hg with hp | hp
        · exact NRR_of_createpre t.Name g.Def ";" "CREATE TRIGGER " hp
            (by decide) (by decide) (by decide) (by decide)
        · exact NRR_of_createpre t.Name g.Def ";" "CREATE CONSTRAINT " hp
            (by decide) (by decide) (by decide) (by decide)
      · rw [hr]
        exact NRR_of_head t.Name "DROP TRIGGER \"" r (by decide) (by decide) (by decide)

/-- The source column of the claim C7 witness: `full_name`, sharing
every non-name attribute with the target's `name` column. -/
def exC7ColFull : PostgresColumn :=
  { Name := "full_name", Type' := "text", NotNull := false,
    Default := { String := "", Valid := false } }

/-- The target column of the claim C7 witness: `name`, attribute-equal
to the source's `full_name`. -/
def exC7ColName : PostgresColumn :=
  { Name := "name", Type' := "text", NotNull := false,
    Default := { String := "", Valid := false } }

/-- Source table of the claim C7 witness. -/
def exC7Source : PostgresTable :=
  { Name := "users",
    Columns := [{ Name := "id", Type' := "integer", NotNull := true,
                  Default := { String := "", Valid := false } }, exC7ColFull],
    Indexes := [{ Name := "users_id_idx",
                  Def := "CREATE INDEX users_id_idx ON public.users USING btree (id)" }],
    Constraints := [],
    Triggers := [{ Name := "users_audit",
                   Def := "CREATE TRIGGER users_audit AFTER UPDATE ON public.users FOR EACH ROW EXECUTE FUNCTION audit()" }] }

/-- Target table of the claim C7 witness. -/
def exC7Target : PostgresTable :=
  { Name := "users",
    Columns := [{ Name := "id", Type' := "integer", NotNull := true,
                  Default := { String := "", Valid := false } }, exC7ColName],
    Indexes := [{ Name := "users_id_idx",
                  Def := "CREATE INDEX users_id_idx ON public.users USING btree (id)" }],
    Constraints := [],
    Triggers := [{ Name := "users_audit",
                   Def := "CREATE TRIGGER users_audit AFTER UPDATE ON public.users FOR EACH ROW EXECUTE FUNCTION audit()" }] }

/-- Witness for claim C7: the attribute-equal rename pair
`full_name`/`name` yields an ADD COLUMN and a DROP COLUMN, and every
emitted statement is neither a RENAME COLUMN nor a rebuild. -/
theorem claim_C7_witness :
    ("ALTER TABLE \"" ++ exC7Source.Name ++ "\" ADD COLUMN "
        ++ exC7ColFull.String ++ ";")
      ∈ exC7Source.DiffTableStmts exC7Target ∧
    ("ALTER TABLE \"" ++ exC7Source.Name ++ "\" DROP COLUMN \""
        ++ exC7ColName.Name ++ "\";")
      ∈ exC7Source.DiffTableStmts exC7Target ∧
    (∀ stmt ∈ exC7Source.DiffTableStmts exC7Target,
      NotRenameNorRebuild exC7Source.Name stmt) := by
  have h := claim_C7 exC7Source exC7Target
    (by intro i hi; left; rcases List.mem_singleton.mp hi with rfl; decide)
    (by intro g hg; left; rcases List.mem_singleton.mp hg with rfl; decide)
  exact ⟨h.1 exC7ColFull (by decide) (by decide),
    h.2.1 exC7ColName (by decide) (by decide), h.2.2.2⟩
